import Mathlib

set_option maxHeartbeats 1000000

deriving instance DecidableEq for Except

namespace Mcpy

/-- Atomic Python values handled by `astify`'s constant branch:
`int`, `float`, `str`, `bytes`, `bool`, `None`.  Floats are never computed
with by the code (only stored and retrieved), so a float value is modelled
as an opaque bit-pattern token. Bytes are modelled as their byte lists. -/
inductive Atom where
  | aInt (i : Int)
  | aFloat (bits : Nat)
  | aStr (s : String)
  | aBytes (bs : List Nat)
  | aBool (b : Bool)
  | aNone
deriving DecidableEq

mutual
/-- Shallow embedding of the Python AST universe used by `mcpy.quotes`:
the node kinds that appear in `quotes.py` (`Constant`, `Name`, `Attribute`,
`Call`, `keyword`, `List`, `Tuple`, `Dict`, `Set`, `Load`, `Assign`) plus the
two quasiquote markers `ASTLiteral` and `CaptureLater` (which subclass
`ast.AST` via `ASTMarker`, so they behave as single AST nodes).  A `ctx`
attribute may be absent on a node constructed without it (Python's
`ast.iter_fields` then skips it), hence `Option`. -/
inductive PyAst where
  | Constant (value : Atom)
  | Name (id : String) (ctx : Option PyAst)
  | Attribute (value : PyAst) (attr : String) (ctx : Option PyAst)
  | Call (func : PyAst) (args : PyAstList) (keywords : PyAstList)
  | Kw (arg : String) (value : PyAst)
  | ListA (elts : PyAstList)
  | TupleA (elts : PyAstList)
  | DictA (keys : PyAstList) (values : PyAstList)
  | SetA (elts : PyAstList)
  | Load
  | Assign (targets : PyAstList) (value : PyAst)
  | ASTLiteral (body : PyAst)
  | CaptureLater (body : PyAst) (name : String)

/-- A Python `list` of AST nodes (mutual with `PyAst` so that structural
recursion and induction stay simple). -/
inductive PyAstList where
  | nil
  | cons (head : PyAst) (tail : PyAstList)
end

mutual
/-- The universe of Python run-time values that `astify` can lift: atoms,
lists, tuples, sets, dicts (as insertion-ordered pair sequences), and AST
nodes. -/
inductive Value where
  | atom (a : Atom)
  | vList (xs : ValueList)
  | vTuple (xs : ValueList)
  | vDict (kvs : ValuePairList)
  | vSet (xs : ValueList)
  | ast (t : PyAst)

/-- A Python `list`/`tuple`/`set` payload of values. -/
inductive ValueList where
  | nil
  | cons (head : Value) (tail : ValueList)

/-- A Python `dict` payload: key/value pairs in insertion order. -/
inductive ValuePairList where
  | nil
  | cons (key : Value) (val : Value) (tail : ValuePairList)
end

/-- Python exception classes raised by the embedded code. -/
inductive PyErr where
  | typeErr (msg : String)
  | valueErr (msg : String)
  | syntaxErr (msg : String)
  | notImplErr
  | keyErr (name : String)
  | attrErr (name : String)
  | assertErr (msg : String)
deriving DecidableEq

-- ---------------------------------------------------------------------------
-- mcpy/quotes.py: astify
-- ---------------------------------------------------------------------------

/-- Embeds `_mcpy_quotes_attr` from `mcpy/quotes.py`: an AST that, compiled and
run, looks up `mcpy.quotes.<attr>` in `Load` context. -/
def _mcpy_quotes_attr (attr : String) : PyAst :=
  let mcpy_quotes_module : PyAst :=
    .Attribute (.Name "mcpy" (some .Load)) "quotes" (some .Load)
  .Attribute mcpy_quotes_module attr (some .Load)

/-- The callee `mcpy.quotes.ast.<cls>` used by `astify`'s generic AST branch
(`ast.Attribute(value=_mcpy_quotes_attr('ast'), attr=cls, ctx=ast.Load())`). -/
def quotesAstCls (cls : String) : PyAst :=
  .Attribute (_mcpy_quotes_attr "ast") cls (some .Load)

mutual
/-- Embeds `astify.recurse` from `mcpy/quotes.py` on AST arguments: the
`ASTLiteral`, `CaptureLater` and `isinstance(x, ast.AST)` branches.  The single
dynamically type-dispatched `recurse` of the source is split by argument type
into `astifyNode` (AST arguments) and `astify` (run-time values); every branch
is translated from the source.  `macroCapture` abstracts the composite test
`expander and expander.ismacroname(id)` together with the unique name that
`_capture_into(_hygienic_bindings, function, macroname)` mints for a captured
macro: it returns `some uniquename` exactly when the source takes the
hygienic-macro-capture path (it is `fun x => none` when `expander is None`).
The generic branch lifts each field of `ast.iter_fields(x)` in field order;
an absent `ctx` attribute yields no keyword, exactly as `iter_fields` skips it. -/
def astifyNode (macroCapture : String → Option String) : PyAst → PyAst
  | .ASTLiteral body => body
  | .CaptureLater body name =>
    match body with
    | .Name id ctx =>
      match macroCapture id with
      | some uniquename =>
        -- `recurse(ast.Name(id=uniquename))`: the recursive call is applied to a
        -- freshly built one-node AST, so its (fixed) result is written out here:
        -- the generic branch on a `Name` with no `ctx` attribute.
        .Call (quotesAstCls "Name") .nil
          (.cons (.Kw "id" (.Constant (.aStr uniquename))) .nil)
      | none =>
        .Call (_mcpy_quotes_attr "capture")
          (.cons (.Name id ctx) (.cons (.Constant (.aStr name)) .nil)) .nil
    | b =>
      .Call (_mcpy_quotes_attr "capture")
        (.cons b (.cons (.Constant (.aStr name)) .nil)) .nil
  | .Constant v =>
    .Call (quotesAstCls "Constant") .nil
      (.cons (.Kw "value" (.Constant v)) .nil)
  | .Name id ctx =>
    .Call (quotesAstCls "Name") .nil
      (.cons (.Kw "id" (.Constant (.aStr id)))
        (match ctx with
         | none => .nil
         | some c => .cons (.Kw "ctx" (astifyNode macroCapture c)) .nil))
  | .Attribute value attr ctx =>
    .Call (quotesAstCls "Attribute") .nil
      (.cons (.Kw "value" (astifyNode macroCapture value))
        (.cons (.Kw "attr" (.Constant (.aStr attr)))
          (match ctx with
           | none => .nil
           | some c => .cons (.Kw "ctx" (astifyNode macroCapture c)) .nil)))
  | .Call func args keywords =>
    .Call (quotesAstCls "Call") .nil
      (.cons (.Kw "func" (astifyNode macroCapture func))
        (.cons (.Kw "args" (.ListA (astifyNodeList macroCapture args)))
          (.cons (.Kw "keywords" (.ListA (astifyNodeList macroCapture keywords))) .nil)))
  | .Kw arg value =>
    .Call (quotesAstCls "keyword") .nil
      (.cons (.Kw "arg" (.Constant (.aStr arg)))
        (.cons (.Kw "value" (astifyNode macroCapture value)) .nil))
  | .ListA elts =>
    .Call (quotesAstCls "List") .nil
      (.cons (.Kw "elts" (.ListA (astifyNodeList macroCapture elts))) .nil)
  | .TupleA elts =>
    .Call (quotesAstCls "Tuple") .nil
      (.cons (.Kw "elts" (.ListA (astifyNodeList macroCapture elts))) .nil)
  | .DictA keys values =>
    .Call (quotesAstCls "Dict") .nil
      (.cons (.Kw "keys" (.ListA (astifyNodeList macroCapture keys)))
        (.cons (.Kw "values" (.ListA (astifyNodeList macroCapture values))) .nil))
  | .SetA elts =>
    .Call (quotesAstCls "Set") .nil
      (.cons (.Kw "elts" (.ListA (astifyNodeList macroCapture elts))) .nil)
  | .Load =>
    .Call (quotesAstCls "Load") .nil .nil
  | .Assign targets value =>
    .Call (quotesAstCls "Assign") .nil
      (.cons (.Kw "targets" (.ListA (astifyNodeList macroCapture targets)))
        (.cons (.Kw "value" (astifyNode macroCapture value)) .nil))

/-- `recurse` mapped over a Python list of AST nodes (the `T is list` branch
restricted to lists of nodes, as they occur in node fields). -/
def astifyNodeList (macroCapture : String → Option String) : PyAstList → PyAstList
  | .nil => .nil
  | .cons t ts => .cons (astifyNode macroCapture t) (astifyNodeList macroCapture ts)
end

mutual
/-- Embeds `astify` from `mcpy/quotes.py` on run-time values: the constant,
`list`, `tuple`, `dict` and `set` branches of `recurse`; `.ast` arguments are
the marker and `isinstance(x, ast.AST)` branches, handled by `astifyNode`.
On this universe the lift is total: the final `raise TypeError` branch of the
source is reachable only for values outside the liftable universe. -/
def astify (macroCapture : String → Option String) : Value → PyAst
  | .atom a => .Constant a
  | .vList xs => .ListA (astifyList macroCapture xs)
  | .vTuple xs => .TupleA (astifyList macroCapture xs)
  | .vDict kvs => .DictA (astifyDictKeys macroCapture kvs) (astifyDictValues macroCapture kvs)
  | .vSet xs => .SetA (astifyList macroCapture xs)
  | .ast t => astifyNode macroCapture t

/-- `list(recurse(elt) for elt in x)`. -/
def astifyList (macroCapture : String → Option String) : ValueList → PyAstList
  | .nil => .nil
  | .cons v vs => .cons (astify macroCapture v) (astifyList macroCapture vs)

/-- `list(recurse(k) for k in x.keys())`. -/
def astifyDictKeys (macroCapture : String → Option String) : ValuePairList → PyAstList
  | .nil => .nil
  | .cons k _ kvs => .cons (astify macroCapture k) (astifyDictKeys macroCapture kvs)

/-- `list(recurse(v) for v in x.values())`. -/
def astifyDictValues (macroCapture : String → Option String) : ValuePairList → PyAstList
  | .nil => .nil
  | .cons _ v kvs => .cons (astify macroCapture v) (astifyDictValues macroCapture kvs)
end

-- ---------------------------------------------------------------------------
-- mcpy/quotes.py: unastify
-- ---------------------------------------------------------------------------

/-- `s.startswith(pre)`, computed on the character lists (the library string
functions do not reduce inside proofs). -/
def strStartsWith (s pre : String) : Bool := go s.data pre.data
where
  go : List Char → List Char → Bool
    | _, [] => true
    | [], _ :: _ => false
    | c :: cs, p :: ps => c == p && go cs ps

/-- Python `s.split(".")`: split at every dot, keeping empty pieces. -/
def splitOnDots (s : String) : List String := go s.data []
where
  go : List Char → List Char → List String
    | [], acc => [String.mk acc.reverse]
    | c :: cs, acc =>
      if c = '.' then String.mk acc.reverse :: go cs []
      else go cs (c :: acc)

/-- Python `".".join(parts)`. -/
def joinDots : List String → String
  | [] => ""
  | [p] => p
  | p :: ps => p ++ "." ++ joinDots ps

/-- Embeds `attr_ast_to_dotted_name` (inner helper of `unastify`), returning the
root-first component list `reversed(acc)`: the top-level node must be an
`Attribute` (else `TypeError`); each step appends `tree.attr` and recurses into
an `Attribute` value, stops at a `Name` value, and anything else raises
`NotImplementedError`. -/
def attr_ast_components : PyAst → Except PyErr (List String)
  | .Attribute value attr _ =>
    match value with
    | .Attribute v a c =>
      match attr_ast_components (.Attribute v a c) with
      | .ok parts => .ok (parts ++ [attr])
      | .error e => .error e
    | .Name id _ => .ok [id, attr]
    | _ => .error .notImplErr
  | _ => .error (.typeErr "attr_ast_to_dotted_name: not an Attribute")

/-- `".".join(reversed(acc))` applied to the collected components. -/
def attr_ast_to_dotted_name (tree : PyAst) : Except PyErr String :=
  match attr_ast_components tree with
  | .ok parts => .ok (joinDots parts)
  | .error e => .error e

/-- The globals of module `mcpy.quotes` (its imports and definitions), used by
`lookup_thing` via `our_module_globals[name_of_thing]`. -/
def our_module_globals : List String :=
  ["capture", "lookup", "astify", "unastify", "q", "u", "n", "a", "s", "h",
   "expand1q", "expandq", "expand1", "expand",
   "ast", "_hygienic_bindings", "expand_macros", "ASTMarker", "get_markers",
   "unparse", "gensym", "NestingLevelTracker",
   "QuasiquoteMarker", "ASTLiteral", "CaptureLater",
   "_mcpy_quotes_attr", "_capture_into", "_hygienic_registry",
   "_quotelevel", "_unquote_expand", "_expand_quasiquotes"]

/-- Attributes of the stdlib `ast` module reachable as `mcpy.quotes.ast.<name>`,
restricted to the node kinds of the embedded AST universe; `getattr` on any
other name raises `AttributeError`. -/
def ast_module_attrs : List String :=
  ["Constant", "Name", "Attribute", "Call", "keyword", "List", "Tuple",
   "Dict", "Set", "Load", "Assign"]

/-- What `lookup_thing` can resolve a dotted name to: an `ast` node class
(`mcpy.quotes.ast.<cls>`), or some other global of `mcpy.quotes`
(`mcpy.quotes.<name>`, possibly the `ast` module object itself). -/
inductive Thing where
  | astCls (cls : String)
  | pyObj (name : String)
deriving DecidableEq

/-- Embeds `lookup_thing` (inner helper of `unastify`): reject a dotted name
that does not start (string-wise) with `"mcpy.quotes"` or has fewer than three
dot-separated components (`NotImplementedError`); then look up the third
component among the module globals (`KeyError` if absent) and walk any further
components with `getattr`.  In the embedded universe only the `ast` module
global has retrievable attributes (its node classes); `getattr` below any
other global, or two levels below `ast`, raises `AttributeError`. -/
def lookup_thing (dotted_name : String) : Except PyErr Thing :=
  if ¬ strStartsWith dotted_name "mcpy.quotes" then .error .notImplErr
  else
    match splitOnDots dotted_name with
    | _ :: _ :: name_of_thing :: rest =>
      if name_of_thing ∈ our_module_globals then
        match rest with
        | [] => .ok (.pyObj name_of_thing)
        | [attrname] =>
          if name_of_thing = "ast" ∧ attrname ∈ ast_module_attrs then .ok (.astCls attrname)
          else .error (.attrErr attrname)
        | attrname :: _ => .error (.attrErr attrname)
      else .error (.keyErr name_of_thing)
    | _ => .error .notImplErr

/-- Coerces a lowered value used as an AST-node constructor argument back into
a node; a value outside the embedded AST universe is rejected (the Python
constructor would accept it but build an object outside this universe). -/
def asNode : Value → Except PyErr PyAst
  | .ast t => .ok t
  | _ => .error (.typeErr "expected an AST node")

/-- Coerces a lowered value into a string (for `id`, `attr`, `arg` fields). -/
def asStr : Value → Except PyErr String
  | .atom (.aStr s) => .ok s
  | _ => .error (.typeErr "expected a str")

/-- Coerces a lowered value into an atom (for `Constant.value`). -/
def asAtom : Value → Except PyErr Atom
  | .atom a => .ok a
  | _ => .error (.typeErr "expected a constant")

/-- Coerces a lowered Python `list` of nodes into a node list. -/
def asNodeList : Value → Except PyErr PyAstList
  | .vList xs => go xs
  | _ => .error (.typeErr "expected a list of AST nodes")
where
  go : ValueList → Except PyErr PyAstList
    | .nil => .ok .nil
    | .cons (.ast t) vs =>
      match go vs with
      | .ok ts => .ok (.cons t ts)
      | .error e => .error e
    | .cons _ _ => .error (.typeErr "expected a list of AST nodes")

/-- Looks a keyword argument up by name.  A Python `dict` built from a pair
list keeps the last occurrence of a duplicated key, hence the reversed scan. -/
def kwGet (kwargs : List (String × Value)) (name : String) : Option Value :=
  (kwargs.reverse.find? (fun kv => kv.fst == name)).map (·.snd)

/-- Embeds the call `callee(*args, **kwargs)` of `unastify` for a callee that
is an `ast` node class: rebuild the node from its keyword arguments (the only
call shape `astify` emits carries no positional arguments; positional calls to
node constructors fall outside the embedded universe and are rejected).  The
field names follow the Python node classes; an absent optional `ctx` keyword
leaves the attribute absent. -/
def construct (cls : String) (args : ValueList) (kwargs : List (String × Value)) :
    Except PyErr PyAst :=
  match args with
  | .cons _ _ => .error (.typeErr "positional node-constructor arguments are outside the model")
  | .nil =>
    match cls with
    | "Constant" =>
      match kwGet kwargs "value" with
      | some v =>
        match asAtom v with
        | .ok a => .ok (.Constant a)
        | .error e => .error e
      | none => .error (.typeErr "Constant: missing value")
    | "Name" =>
      match kwGet kwargs "id" with
      | some idv =>
        match asStr idv with
        | .ok s =>
          match kwGet kwargs "ctx" with
          | some ctxv =>
            match asNode ctxv with
            | .ok c => .ok (.Name s (some c))
            | .error e => .error e
          | none => .ok (.Name s none)
        | .error e => .error e
      | none => .error (.typeErr "Name: missing id")
    | "Attribute" =>
      match kwGet kwargs "value", kwGet kwargs "attr" with
      | some vv, some av =>
        match asNode vv, asStr av with
        | .ok v, .ok a =>
          match kwGet kwargs "ctx" with
          | some ctxv =>
            match asNode ctxv with
            | .ok c => .ok (.Attribute v a (some c))
            | .error e => .error e
          | none => .ok (.Attribute v a none)
        | .error e, _ => .error e
        | _, .error e => .error e
      | _, _ => .error (.typeErr "Attribute: missing field")
    | "Call" =>
      match kwGet kwargs "func", kwGet kwargs "args", kwGet kwargs "keywords" with
      | some fv, some av, some kv =>
        match asNode fv, asNodeList av, asNodeList kv with
        | .ok f, .ok a, .ok k => .ok (.Call f a k)
        | .error e, _, _ => .error e
        | _, .error e, _ => .error e
        | _, _, .error e => .error e
      | _, _, _ => .error (.typeErr "Call: missing field")
    | "keyword" =>
      match kwGet kwargs "arg", kwGet kwargs "value" with
      | some av, some vv =>
        match asStr av, asNode vv with
        | .ok a, .ok v => .ok (.Kw a v)
        | .error e, _ => .error e
        | _, .error e => .error e
      | _, _ => .error (.typeErr "keyword: missing field")
    | "List" =>
      match kwGet kwargs "elts" with
      | some ev =>
        match asNodeList ev with
        | .ok es => .ok (.ListA es)
        | .error e => .error e
      | none => .error (.typeErr "List: missing elts")
    | "Tuple" =>
      match kwGet kwargs "elts" with
      | some ev =>
        match asNodeList ev with
        | .ok es => .ok (.TupleA es)
        | .error e => .error e
      | none => .error (.typeErr "Tuple: missing elts")
    | "Dict" =>
      match kwGet kwargs "keys", kwGet kwargs "values" with
      | some kv, some vv =>
        match asNodeList kv, asNodeList vv with
        | .ok ks, .ok vs => .ok (.DictA ks vs)
        | .error e, _ => .error e
        | _, .error e => .error e
      | _, _ => .error (.typeErr "Dict: missing field")
    | "Set" =>
      match kwGet kwargs "elts" with
      | some ev =>
        match asNodeList ev with
        | .ok es => .ok (.SetA es)
        | .error e => .error e
      | none => .error (.typeErr "Set: missing elts")
    | "Load" => .ok .Load
    | "Assign" =>
      match kwGet kwargs "targets", kwGet kwargs "value" with
      | some tv, some vv =>
        match asNodeList tv, asNode vv with
        | .ok ts, .ok v => .ok (.Assign ts v)
        | .error e, _ => .error e
        | _, .error e => .error e
      | _, _ => .error (.typeErr "Assign: missing field")
    | _ => .error (.typeErr "not an ast node class")

/-- Destructures the lowered keyword list (`{k: v for k, v in unastify(tree.keywords)}`):
each element must be a pair, as produced by the `ast.keyword` branch; any other
element fails the tuple unpacking. -/
def toKwargs : ValueList → Except PyErr (List (String × Value))
  | .nil => .ok []
  | .cons (.vTuple (.cons (.atom (.aStr k)) (.cons v .nil))) rest =>
    match toKwargs rest with
    | .ok kws => .ok ((k, v) :: kws)
    | .error e => .error e
  | .cons _ _ => .error (.typeErr "cannot unpack a keyword pair")

mutual
/-- Embeds `unastify` from `mcpy/quotes.py`, branch for branch: `Constant`,
Python `list` (the `unastifyElts` helper, used on `args` and `keywords`),
`ast.keyword` (lowered to the pair `(tree.arg, unastify(tree.value))`),
`List`, `Tuple`, `Dict` (keys zipped with values), `Set`, `Call` (dotted-name
resolution, then lower arguments and keyword arguments, then invoke the
callee), and a final `TypeError` for every other shape.  `callObj` abstracts
the Python-level call `callee(*args, **kwargs)` for a callee that is a plain
module global rather than an `ast` node class (e.g. `mcpy.quotes.capture`):
such a call runs arbitrary stateful code, so its outcome is left abstract and
every theorem quantifies over it. -/
def unastify (callObj : String → ValueList → List (String × Value) → Except PyErr Value) :
    PyAst → Except PyErr Value
  | .Constant v => .ok (.atom v)
  | .Kw arg value =>
    match unastify callObj value with
    | .ok w => .ok (.vTuple (.cons (.atom (.aStr arg)) (.cons w .nil)))
    | .error e => .error e
  | .ListA elts =>
    match unastifyElts callObj elts with
    | .ok vs => .ok (.vList vs)
    | .error e => .error e
  | .TupleA elts =>
    match unastifyElts callObj elts with
    | .ok vs => .ok (.vTuple vs)
    | .error e => .error e
  | .DictA keys values =>
    match unastifyPairs callObj keys values with
    | .ok kvs => .ok (.vDict kvs)
    | .error e => .error e
  | .SetA elts =>
    match unastifyElts callObj elts with
    | .ok vs => .ok (.vSet vs)
    | .error e => .error e
  | .Call func args keywords =>
    match attr_ast_to_dotted_name func with
    | .error e => .error e
    | .ok dotted_name =>
      match lookup_thing dotted_name with
      | .error e => .error e
      | .ok callee =>
        match unastifyElts callObj args with
        | .error e => .error e
        | .ok argvs =>
          match unastifyElts callObj keywords with
          | .error e => .error e
          | .ok kwvs =>
            match toKwargs kwvs with
            | .error e => .error e
            | .ok kwargs =>
              match callee with
              | .astCls cls =>
                match construct cls argvs kwargs with
                | .ok t => .ok (.ast t)
                | .error e => .error e
              | .pyObj name => callObj name argvs kwargs
  | _ => .error (.typeErr "Don't know how to unastify")
termination_by t => sizeOf t

/-- The `T is list` branch of `unastify`: `[unastify(elt) for elt in tree]`. -/
def unastifyElts (callObj : String → ValueList → List (String × Value) → Except PyErr Value) :
    PyAstList → Except PyErr ValueList
  | .nil => .ok .nil
  | .cons t ts =>
    match unastify callObj t with
    | .error e => .error e
    | .ok v =>
      match unastifyElts callObj ts with
      | .error e => .error e
      | .ok vs => .ok (.cons v vs)
termination_by ts => sizeOf ts

/-- The `Dict` branch: `{unastify(k): unastify(v) for k, v in zip(tree.keys, tree.values)}`
(`zip` truncates at the shorter list). -/
def unastifyPairs (callObj : String → ValueList → List (String × Value) → Except PyErr Value) :
    PyAstList → PyAstList → Except PyErr ValuePairList
  | .cons k ks, .cons v vs =>
    match unastify callObj k with
    | .error e => .error e
    | .ok kv =>
      match unastify callObj v with
      | .error e => .error e
      | .ok vv =>
        match unastifyPairs callObj ks vs with
        | .error e => .error e
        | .ok rest => .ok (.cons kv vv rest)
  | _, _ => .ok .nil
termination_by ks vs => sizeOf ks + sizeOf vs
end

-- ---------------------------------------------------------------------------
-- mcpyrate/markers.py: get_markers, delete_markers
-- ---------------------------------------------------------------------------

/-- The marker classes passed as the `cls` argument of `get_markers` and
`delete_markers` in this code base; `isInst` is `isinstance(tree, cls)`
(`ASTLiteral` and `CaptureLater` both subclass `QuasiquoteMarker`, which
subclasses `ASTMarker`). -/
inductive MarkerCls where
  | astMarkerC
  | quasiquoteMarkerC
  | astLiteralC
  | captureLaterC
deriving DecidableEq

/-- `isinstance(tree, cls)` on the embedded marker class hierarchy. -/
def isInst (cls : MarkerCls) (t : PyAst) : Bool :=
  match cls, t with
  | .astMarkerC, .ASTLiteral _ => true
  | .astMarkerC, .CaptureLater _ _ => true
  | .quasiquoteMarkerC, .ASTLiteral _ => true
  | .quasiquoteMarkerC, .CaptureLater _ _ => true
  | .astLiteralC, .ASTLiteral _ => true
  | .captureLaterC, .CaptureLater _ _ => true
  | _, _ => false

/-- The `examine` step of `get_markers`'s collector: collect the node when it
is a `cls` instance. -/
def markerHit (cls : MarkerCls) (t : PyAst) : List PyAst :=
  if isInst cls t then [t] else []

mutual
/-- Modelled from the spec: `get_markers` (src/mcpyrate/markers.py) walks the
tree with the generic `ASTVisitor` from `mcpyrate/walker.py`, which is not in
`src/`.  Per the spec, markers "are structurally valid tree nodes (so generic
tree walkers treat them transparently)" and the walker provides tree-wide
search; here that is a preorder traversal that examines every node (collecting
`cls` instances) and recurses into every child field, including a marker's
`body`. -/
def get_markers (cls : MarkerCls) : PyAst → List PyAst
  | .Constant v => markerHit cls (.Constant v)
  | .Name id ctx => markerHit cls (.Name id ctx) ++ get_markers_opt cls ctx
  | .Attribute v a c =>
    markerHit cls (.Attribute v a c) ++ get_markers cls v ++ get_markers_opt cls c
  | .Call f args kws =>
    markerHit cls (.Call f args kws) ++ get_markers cls f ++
      get_markers_list cls args ++ get_markers_list cls kws
  | .Kw a v => markerHit cls (.Kw a v) ++ get_markers cls v
  | .ListA es => markerHit cls (.ListA es) ++ get_markers_list cls es
  | .TupleA es => markerHit cls (.TupleA es) ++ get_markers_list cls es
  | .DictA ks vs =>
    markerHit cls (.DictA ks vs) ++ get_markers_list cls ks ++ get_markers_list cls vs
  | .SetA es => markerHit cls (.SetA es) ++ get_markers_list cls es
  | .Load => markerHit cls .Load
  | .Assign ts v => markerHit cls (.Assign ts v) ++ get_markers_list cls ts ++ get_markers cls v
  | .ASTLiteral b => markerHit cls (.ASTLiteral b) ++ get_markers cls b
  | .CaptureLater b n => markerHit cls (.CaptureLater b n) ++ get_markers cls b

/-- The traversal over a list-valued field. -/
def get_markers_list (cls : MarkerCls) : PyAstList → List PyAst
  | .nil => []
  | .cons t ts => get_markers cls t ++ get_markers_list cls ts

/-- The traversal over an optional field (absent fields are skipped). -/
def get_markers_opt (cls : MarkerCls) : Option PyAst → List PyAst
  | none => []
  | some t => get_markers cls t
end

mutual
/-- Modelled from the spec: the `transform` of `delete_markers`'s
`ASTMarkerDeleter` (src/mcpyrate/markers.py) runs under the generic
`ASTTransformer` of the missing `mcpyrate/walker.py`: replace a `cls` instance
by the node in its `body` attribute (a single unwrap, per the source's `if`),
then `generic_visit` the result, i.e. transform every child field. -/
def delete_markers_transform (cls : MarkerCls) : PyAst → PyAst
  | .ASTLiteral b =>
    if isInst cls (.ASTLiteral b) then delete_markers_generic cls b
    else delete_markers_generic cls (.ASTLiteral b)
  | .CaptureLater b n =>
    if isInst cls (.CaptureLater b n) then delete_markers_generic cls b
    else delete_markers_generic cls (.CaptureLater b n)
  | t => delete_markers_generic cls t
termination_by t => (sizeOf t, 1)

/-- Modelled from the spec: `generic_visit` of the missing walker's
`ASTTransformer` — rebuild the node, transforming every child field. -/
def delete_markers_generic (cls : MarkerCls) : PyAst → PyAst
  | .Constant v => .Constant v
  | .Name id none => .Name id none
  | .Name id (some c) => .Name id (some (delete_markers_transform cls c))
  | .Attribute v a none => .Attribute (delete_markers_transform cls v) a none
  | .Attribute v a (some c) =>
    .Attribute (delete_markers_transform cls v) a (some (delete_markers_transform cls c))
  | .Call f args kws =>
    .Call (delete_markers_transform cls f) (delete_markers_list cls args)
      (delete_markers_list cls kws)
  | .Kw a v => .Kw a (delete_markers_transform cls v)
  | .ListA es => .ListA (delete_markers_list cls es)
  | .TupleA es => .TupleA (delete_markers_list cls es)
  | .DictA ks vs => .DictA (delete_markers_list cls ks) (delete_markers_list cls vs)
  | .SetA es => .SetA (delete_markers_list cls es)
  | .Load => .Load
  | .Assign ts v => .Assign (delete_markers_list cls ts) (delete_markers_transform cls v)
  | .ASTLiteral b => .ASTLiteral (delete_markers_transform cls b)
  | .CaptureLater b n => .CaptureLater (delete_markers_transform cls b) n
termination_by t => (sizeOf t, 0)

/-- `generic_visit` over a list-valued field. -/
def delete_markers_list (cls : MarkerCls) : PyAstList → PyAstList
  | .nil => .nil
  | .cons t ts => .cons (delete_markers_transform cls t) (delete_markers_list cls ts)
termination_by ts => (sizeOf ts, 0)
end

/-- Embeds `delete_markers` from `src/mcpyrate/markers.py`: run the deleting
transformer over the tree (`ASTMarkerDeleter().visit(tree)`). -/
def delete_markers (cls : MarkerCls) (tree : PyAst) : PyAst :=
  delete_markers_transform cls tree

-- ---------------------------------------------------------------------------
-- mcpy/utilities.py: NestingLevelTracker (and gensym)
-- ---------------------------------------------------------------------------

/-- The tracker's stack (`self.stack`), to which `__init__` gives the single
entry `start`.  Modelled top-first and nonempty by construction: `top` is
`self.stack[-1]` (the `value` property), `rest` the entries below it;
`append` pushes onto `top`, `pop` drops it.  The `assert self.stack`
postcondition (the popped stack never empties) holds because exits pair with
enters. -/
structure TrackerStack where
  top : Int
  rest : List Int
deriving DecidableEq

/-- The `value` argument of `set_to`, dynamically typed in Python: an `int`,
or a value of any other type (rejected by the `isinstance` check). -/
inductive SetToArg where
  | anInt (n : Int)
  | notAnInt
deriving DecidableEq

/-- Embeds the entry path of `NestingLevelTracker.set_to`
(mcpy/utilities.py): the `isinstance(value, int)` check raises `TypeError`
and the `value < 0` check raises `ValueError`, both before any mutation;
then `_set_to` appends `value` to the stack. -/
def set_to_enter (s : TrackerStack) (value : SetToArg) : Except PyErr TrackerStack :=
  match value with
  | .notAnInt => .error (.typeErr "Expected integer value")
  | .anInt n =>
    if n < 0 then .error (.valueErr "value must be >= 0")
    else .ok ⟨n, s.top :: s.rest⟩

/-- Embeds the exit path (the `finally` of `_set_to`): `self.stack.pop()`.
The `[]` branch is the state on which the source's `assert self.stack` would
fire; it is unreachable when exits pair with enters, as they do under the
context-manager discipline. -/
def set_to_exit (s : TrackerStack) : TrackerStack :=
  match s.rest with
  | r :: rs => ⟨r, rs⟩
  | [] => ⟨s.top, []⟩

/-- A body computation run under the tracker's context managers: the
well-bracketed combinations of `set_to` / `changed_by` scopes, sequencing,
doing nothing, and raising an exception.  This models every body computation
that uses the tracker through its public scoped interface. -/
inductive TrackerProg where
  | skip
  | seq (p q : TrackerProg)
  | withSetTo (value : SetToArg) (body : TrackerProg)
  | withChangedBy (delta : Int) (body : TrackerProg)
  | raise (e : PyErr)

/-- Runs a tracker program: `withSetTo` runs `set_to_enter` (checks before
mutation; a failure propagates with the stack untouched), then the body, and
pops on every exit path (the `finally`), re-raising any body exception after
the pop; `withChangedBy delta` is `set_to(self.value + delta)` with the value
read at entry.  Returns the escaping error (if any), the final stack, and the
trace of every level value the tracker attains (after each push and each pop),
for stating the level invariant. -/
def runTracker : TrackerProg → TrackerStack → Option PyErr × TrackerStack × List Int
  | .skip, s => (none, s, [])
  | .raise e, s => (some e, s, [])
  | .seq p q, s =>
    match runTracker p s with
    | (some e, s1, tr) => (some e, s1, tr)
    | (none, s1, tr) =>
      match runTracker q s1 with
      | (r, s2, tr2) => (r, s2, tr ++ tr2)
  | .withSetTo v body, s =>
    match set_to_enter s v with
    | .error e => (some e, s, [])
    | .ok s1 =>
      match runTracker body s1 with
      | (r, s2, tr) =>
        let s3 := set_to_exit s2
        (r, s3, s1.top :: (tr ++ [s3.top]))
  | .withChangedBy d body, s =>
    match set_to_enter s (.anInt (s.top + d)) with
    | .error e => (some e, s, [])
    | .ok s1 =>
      match runTracker body s1 with
      | (r, s2, tr) =>
        let s3 := set_to_exit s2
        (r, s3, s1.top :: (tr ++ [s3.top]))

/-- A Python run-time object distinguished by identity (`id`): equal tokens
denote the same object, distinct tokens distinct objects (possibly
equal-valued). -/
structure Obj where
  ident : Nat
deriving DecidableEq

/-- The state of `gensym`'s uniqueness discipline.  The source draws
`uuid.uuid4()` hex strings and retries via the process-wide
`_previous_gensyms` set until the drawn name is unused; the embedding
abstracts the draw as a monotone counter, so a minted key is the pair of its
basename and draw index, and minted keys are pairwise distinct exactly as the
retry loop guarantees for the source's string keys. -/
structure GensymState where
  ctr : Nat
deriving DecidableEq

/-- Embeds `gensym` from `mcpy/utilities.py` under the abstraction described
at `GensymState`: mint the key for the current draw and advance the state. -/
def gensym (basename : String) (g : GensymState) : (String × Nat) × GensymState :=
  ((basename, g.ctr), ⟨g.ctr + 1⟩)

/-- The hygienic capture registry `mapping`: a Python `dict` in insertion
order, from minted keys to captured objects. -/
abbrev Registry := List ((String × Nat) × Obj)

/-- Embeds `_capture_into` from `mcpy/quotes.py`: scan `mapping.items()` in
insertion order for an entry whose value `is value` (object identity); if one
is found, return its key and leave the mapping alone, else mint a key with
`gensym(basename)` and append the new entry. -/
def _capture_into (mapping : Registry) (value : Obj) (basename : String) (g : GensymState) :
    (String × Nat) × Registry × GensymState :=
  match mapping.find? (fun kv => kv.snd == value) with
  | some kv => (kv.fst, mapping, g)
  | none =>
    match gensym basename g with
    | (key, g2) => (key, mapping ++ [(key, value)], g2)

-- ---------------------------------------------------------------------------
-- mcpy/visitors.py: BaseMacroExpander.visit and _expand error wrapping
-- ---------------------------------------------------------------------------

/-- Embeds `BaseMacroExpander.visit` from `mcpy/visitors.py`: the
short-circuit `return tree if not self.bindings else super().visit(tree)`.
`bindings` is the expander's name-to-transformer table (transformer functions
abstracted as identity tokens) and `superVisit` abstracts the inherited
`ast.NodeTransformer.visit` dispatch of the concrete subclass (the subclasses
live in `mcpy/core.py`, outside `src/`). -/
def visit (bindings : List (String × Obj)) (superVisit : PyAst → PyAst)
    (tree : PyAst) : PyAst :=
  if bindings.isEmpty then tree else superVisit tree

/-- A Python exception as `BaseMacroExpander._expand`'s wrapping logic sees
it: whether it is a `MacroExpansionError`, its message, and its `__cause__`. -/
inductive Exc where
  | mk (isMEE : Bool) (msg : String) (cause : Option Exc)

/-- Formats `{lineno}` in the f-string, where `lineno` is
`target.lineno if hasattr(target, 'lineno') else None`: Python renders the
missing case as `None`. -/
def linenoStr : Option Int → String
  | some n => toString n
  | none => "None"

/-- Embeds the `except Exception` clause of `BaseMacroExpander._expand`
(mcpy/visitors.py): on any exception from `_apply_macro`, an inner
`MacroExpansionError` is first collapsed to its own `__cause__`; the message
is built from the expander's `filepath`, the target's line number and the
unparsed original source; and a fresh `MacroExpansionError` with that message
is raised `from` the (possibly collapsed) original.  On success the expansion
passes through (to `_visit_expansion`, not involved in the claim). -/
def expandErrWrap (filepath : String) (lineno : Option Int) (original_code : String)
    (applied : Except Exc PyAst) : Except Exc PyAst :=
  match applied with
  | .ok expansion => .ok expansion
  | .error err =>
    let cause : Option Exc :=
      match err with
      | .mk true _ c => c
      | .mk false _ _ => some err
    .error (.mk true
      ("use site was at " ++ filepath ++ ":" ++ linenoStr lineno ++ ": " ++ original_code)
      cause)

-- ---------------------------------------------------------------------------
-- mcpy/quotes.py: the quasiquote operators
-- ---------------------------------------------------------------------------

/-- The `syntax` keyword argument the expander passes to a macro: the
invocation shape. -/
inductive MacroSyn where
  | expr
  | block
deriving DecidableEq

/-- Embeds the `u` operator (mcpy/quotes.py).  The syntax check and the
quote-level precondition run before anything else and leave the tracker and
tree untouched; then, inside `changed_by(-1)` (push `value - 1`, pop on
exit), `_unquote_expand` runs — its local rebinding of `tree` is invisible to
the caller, but the recursive expansion may update the tree's descendants in
place, abstracted by `unquoteExpand` (it needs the missing
`mcpy/expander.py`) — and the result wraps the tree in
`ASTLiteral(ast.Call(mcpy.quotes.astify, [tree], []))`. -/
def uOp (unquoteExpand : PyAst → PyAst) (tree : PyAst) (syn : MacroSyn)
    (s : TrackerStack) : Except PyErr PyAst × TrackerStack :=
  if syn ≠ .expr then (.error (.syntaxErr "u is an expr macro only"), s)
  else if s.top < 1 then (.error (.syntaxErr "u[] encountered while quotelevel < 1"), s)
  else
    match set_to_enter s (.anInt (s.top + (-1))) with
    | .error e => (.error e, s)
    | .ok s1 =>
      let tree1 := unquoteExpand tree
      (.ok (.ASTLiteral (.Call (_mcpy_quotes_attr "astify") (.cons tree1 .nil) .nil)),
       set_to_exit s1)

/-- Embeds the `n` operator: after the same two checks, inside
`changed_by(-1)`, `ASTLiteral(astify(ast.Name(id=ASTLiteral(tree))))`.  The
inner `astify` runs at this point on a one-node `Name` whose `id` field holds
an `ASTLiteral` marker (a dynamically-typed trick the static field types here
cannot carry), so its fixed result is written out: the generic `Name` lift
with the marker pass-through splicing `tree` into the `id` keyword, and no
`ctx` keyword. -/
def nOp (tree : PyAst) (syn : MacroSyn) (s : TrackerStack) :
    Except PyErr PyAst × TrackerStack :=
  if syn ≠ .expr then (.error (.syntaxErr "n is an expr macro only"), s)
  else if s.top < 1 then (.error (.syntaxErr "n[] encountered while quotelevel < 1"), s)
  else
    match set_to_enter s (.anInt (s.top + (-1))) with
    | .error e => (.error e, s)
    | .ok s1 =>
      (.ok (.ASTLiteral (.Call (quotesAstCls "Name") .nil (.cons (.Kw "id" tree) .nil))),
       set_to_exit s1)

/-- Embeds the `a` operator: after the same two checks, inside
`changed_by(-1)`, return `ASTLiteral(tree)`. -/
def aOp (tree : PyAst) (syn : MacroSyn) (s : TrackerStack) :
    Except PyErr PyAst × TrackerStack :=
  if syn ≠ .expr then (.error (.syntaxErr "a is an expr macro only"), s)
  else if s.top < 1 then (.error (.syntaxErr "a[] encountered while quotelevel < 1"), s)
  else
    match set_to_enter s (.anInt (s.top + (-1))) with
    | .error e => (.error e, s)
    | .ok s1 =>
      (.ok (.ASTLiteral tree), set_to_exit s1)

/-- Embeds the `s` operator: after the same two checks — note `s` opens no
`changed_by` block, the level is left unchanged — return
`ASTLiteral(ast.Call(ast.Attribute(value=mcpy.quotes.ast, attr='List'), [],
[ast.keyword("elts", tree)]))` (the `Attribute` here carries no `ctx`). -/
def sOp (tree : PyAst) (syn : MacroSyn) (s : TrackerStack) :
    Except PyErr PyAst × TrackerStack :=
  if syn ≠ .expr then (.error (.syntaxErr "s is an expr macro only"), s)
  else if s.top < 1 then (.error (.syntaxErr "s[] encountered while quotelevel < 1"), s)
  else
    (.ok (.ASTLiteral (.Call (.Attribute (_mcpy_quotes_attr "ast") "List" none) .nil
      (.cons (.Kw "elts" tree) .nil))), s)

/-- Embeds the `h` operator: after the same two checks, inside
`changed_by(-1)`, render the source text of the tree (`unparse`, whose module
is outside `src/`, abstracted as `unparseOracle`), run `_unquote_expand`
(abstracted as in `uOp`), and return `CaptureLater(tree, name)`. -/
def hOp (unparseOracle : PyAst → String) (unquoteExpand : PyAst → PyAst)
    (tree : PyAst) (syn : MacroSyn) (s : TrackerStack) :
    Except PyErr PyAst × TrackerStack :=
  if syn ≠ .expr then (.error (.syntaxErr "h is an expr macro only"), s)
  else if s.top < 1 then (.error (.syntaxErr "h[] encountered while quotelevel < 1"), s)
  else
    match set_to_enter s (.anInt (s.top + (-1))) with
    | .error e => (.error e, s)
    | .ok s1 =>
      let name := unparseOracle tree
      let tree1 := unquoteExpand tree
      (.ok (.CaptureLater tree1 name), set_to_exit s1)

/-- Embeds the `q` operator (mcpy/quotes.py).  `_expand_quasiquotes` builds a
second expander from the missing `mcpy/expander.py`, abstracted as `expandQQ`;
`macroCapture` abstracts `h[macroname]` detection as in `astifyNode`.  Inside
`changed_by(+1)`: expand inner quotes and unquotes, `astify` the result, then
check the postcondition `get_markers(tree, QuasiquoteMarker)` — a non-empty
list trips `assert False` (propagated through the `finally`, which restores
the level).  In block mode the target must be a single `Name`, and the result
is wrapped in an `Assign` that runs at the use site. -/
def qOp (expandQQ : PyAst → PyAst) (macroCapture : String → Option String)
    (tree : PyAst) (syn : MacroSyn) (optional_vars : Option PyAst)
    (s : TrackerStack) : Except PyErr PyAst × TrackerStack :=
  match set_to_enter s (.anInt (s.top + 1)) with
  | .error e => (.error e, s)
  | .ok s1 =>
    let tree1 := expandQQ tree
    let tree2 := astifyNode macroCapture tree1
    match get_markers .quasiquoteMarkerC tree2 with
    | _ :: _ =>
      (.error (.assertErr "QuasiquoteMarker instances remaining in output"), set_to_exit s1)
    | [] =>
      match syn with
      | .expr => (.ok tree2, set_to_exit s1)
      | .block =>
        match optional_vars with
        | none => (.error (.keyErr "optional_vars"), set_to_exit s1)
        | some (.Name id ctx) =>
          (.ok (.Assign (.cons (.Name id ctx) .nil) tree2), set_to_exit s1)
        | some _ => (.error (.syntaxErr "expected a single asname"), set_to_exit s1)

-- ---------------------------------------------------------------------------
-- Auxiliary predicates and string helpers used by the theorems
-- ---------------------------------------------------------------------------

/-- Python `needle in haystack` on strings, computed on character lists. -/
def strContains (hay needle : String) : Bool := go hay.data needle.data
where
  pre : List Char → List Char → Bool
    | _, [] => true
    | [], _ :: _ => false
    | c :: cs, p :: ps => c == p && pre cs ps
  go : List Char → List Char → Bool
    | [], ns => pre [] ns
    | c :: cs, ns => pre (c :: cs) ns || go cs ns

/-- The Python list of values `[t for t in nodes]` viewed as values: each AST
node of the list, as a `Value` (used to state what lowering a lifted node list
returns). -/
def astsOf : PyAstList → ValueList
  | .nil => .nil
  | .cons t ts => .cons (.ast t) (astsOf ts)

mutual
/-- No quasiquote marker (`ASTLiteral` / `CaptureLater`) occurs anywhere in
the node. -/
def cleanNode : PyAst → Bool
  | .Constant _ => true
  | .Name _ none => true
  | .Name _ (some c) => cleanNode c
  | .Attribute v _ none => cleanNode v
  | .Attribute v _ (some c) => cleanNode v && cleanNode c
  | .Call f args kws => cleanNode f && cleanList args && cleanList kws
  | .Kw _ v => cleanNode v
  | .ListA es => cleanList es
  | .TupleA es => cleanList es
  | .DictA ks vs => cleanList ks && cleanList vs
  | .SetA es => cleanList es
  | .Load => true
  | .Assign ts v => cleanList ts && cleanNode v
  | .ASTLiteral _ => false
  | .CaptureLater _ _ => false

/-- No quasiquote marker occurs in any node of the list. -/
def cleanList : PyAstList → Bool
  | .nil => true
  | .cons t ts => cleanNode t && cleanList ts
end

mutual
/-- No quasiquote marker occurs anywhere in the value (including inside any
AST-node constituents). -/
def cleanValue : Value → Bool
  | .atom _ => true
  | .vList xs => cleanValueList xs
  | .vTuple xs => cleanValueList xs
  | .vDict kvs => cleanValuePairs kvs
  | .vSet xs => cleanValueList xs
  | .ast t => cleanNode t

/-- `cleanValue` over a value list. -/
def cleanValueList : ValueList → Bool
  | .nil => true
  | .cons v vs => cleanValue v && cleanValueList vs

/-- `cleanValue` over dict pairs. -/
def cleanValuePairs : ValuePairList → Bool
  | .nil => true
  | .cons k v kvs => cleanValue k && cleanValue v && cleanValuePairs kvs
end

mutual
/-- Every quasiquote marker in the node wraps a marker-free body: the shape
`_expand_quasiquotes` leaves behind on input whose escape operators are all
well-formed (each unquote operator produces exactly one marker around an
already-expanded, marker-free subtree). -/
def markerBodiesClean : PyAst → Bool
  | .Constant _ => true
  | .Name _ none => true
  | .Name _ (some c) => markerBodiesClean c
  | .Attribute v _ none => markerBodiesClean v
  | .Attribute v _ (some c) => markerBodiesClean v && markerBodiesClean c
  | .Call f args kws =>
    markerBodiesClean f && markerBodiesCleanList args && markerBodiesCleanList kws
  | .Kw _ v => markerBodiesClean v
  | .ListA es => markerBodiesCleanList es
  | .TupleA es => markerBodiesCleanList es
  | .DictA ks vs => markerBodiesCleanList ks && markerBodiesCleanList vs
  | .SetA es => markerBodiesCleanList es
  | .Load => true
  | .Assign ts v => markerBodiesCleanList ts && markerBodiesClean v
  | .ASTLiteral b => cleanNode b
  | .CaptureLater b _ => cleanNode b

/-- `markerBodiesClean` over a node list. -/
def markerBodiesCleanList : PyAstList → Bool
  | .nil => true
  | .cons t ts => markerBodiesClean t && markerBodiesCleanList ts
end

mutual
/-- No `cls` instance occurs anywhere in the tree. -/
def noInstNode (cls : MarkerCls) : PyAst → Bool
  | .Constant _ => true
  | .Name _ none => true
  | .Name _ (some c) => noInstNode cls c
  | .Attribute v _ none => noInstNode cls v
  | .Attribute v _ (some c) => noInstNode cls v && noInstNode cls c
  | .Call f args kws =>
    noInstNode cls f && noInstList cls args && noInstList cls kws
  | .Kw _ v => noInstNode cls v
  | .ListA es => noInstList cls es
  | .TupleA es => noInstList cls es
  | .DictA ks vs => noInstList cls ks && noInstList cls vs
  | .SetA es => noInstList cls es
  | .Load => true
  | .Assign ts v => noInstList cls ts && noInstNode cls v
  | .ASTLiteral b => !(isInst cls (.ASTLiteral b)) && noInstNode cls b
  | .CaptureLater b n => !(isInst cls (.CaptureLater b n)) && noInstNode cls b

/-- `noInstNode` over a node list. -/
def noInstList (cls : MarkerCls) : PyAstList → Bool
  | .nil => true
  | .cons t ts => noInstNode cls t && noInstList cls ts
end

mutual
/-- No `cls` marker instance in the tree has a body whose root is itself a
`cls` instance (a directly nested marker). -/
def noDirectNest (cls : MarkerCls) : PyAst → Bool
  | .Constant _ => true
  | .Name _ none => true
  | .Name _ (some c) => noDirectNest cls c
  | .Attribute v _ none => noDirectNest cls v
  | .Attribute v _ (some c) => noDirectNest cls v && noDirectNest cls c
  | .Call f args kws =>
    noDirectNest cls f && noDirectNestList cls args && noDirectNestList cls kws
  | .Kw _ v => noDirectNest cls v
  | .ListA es => noDirectNestList cls es
  | .TupleA es => noDirectNestList cls es
  | .DictA ks vs => noDirectNestList cls ks && noDirectNestList cls vs
  | .SetA es => noDirectNestList cls es
  | .Load => true
  | .Assign ts v => noDirectNestList cls ts && noDirectNest cls v
  | .ASTLiteral b => (!(isInst cls (.ASTLiteral b)) || !(isInst cls b)) && noDirectNest cls b
  | .CaptureLater b n => (!(isInst cls (.CaptureLater b n)) || !(isInst cls b)) && noDirectNest cls b

/-- `noDirectNest` over a node list. -/
def noDirectNestList (cls : MarkerCls) : PyAstList → Bool
  | .nil => true
  | .cons t ts => noDirectNest cls t && noDirectNestList cls ts
end

-- ---------------------------------------------------------------------------
-- Lemmas about the nesting-level tracker
-- ---------------------------------------------------------------------------

theorem set_to_enter_ok {s : TrackerStack} {v : SetToArg} {s1 : TrackerStack}
    (h : set_to_enter s v = .ok s1) :
    s1.rest = s.top :: s.rest ∧ 0 ≤ s1.top := by
  cases v with
  | notAnInt => simp [set_to_enter] at h
  | anInt n =>
    simp only [set_to_enter] at h
    split at h
    · exact absurd h (by simp)
    · rename_i hn
      cases h
      refine ⟨rfl, ?_⟩
      show (0 : Int) ≤ n
      omega

theorem set_to_exit_enter {s s1 : TrackerStack} {v : SetToArg}
    (h : set_to_enter s v = .ok s1) : set_to_exit s1 = s := by
  have := (set_to_enter_ok h).1
  simp [set_to_exit, this]

theorem runTracker_restores (p : TrackerProg) : ∀ s : TrackerStack,
    (runTracker p s).2.1 = s := by
  induction p with
  | skip => intro s; rfl
  | raise e => intro s; rfl
  | seq p q ihp ihq =>
    intro s
    rcases hp : runTracker p s with ⟨r, s1, tr⟩
    have hs1 : s1 = s := by have := ihp s; rw [hp] at this; exact this
    cases r with
    | some e => simp [runTracker, hp, hs1]
    | none =>
      rcases hq : runTracker q s1 with ⟨r2, s2, tr2⟩
      have hs2 : s2 = s1 := by have := ihq s1; rw [hq] at this; exact this
      simp only [runTracker, hp, hq]
      simp [hs2, hs1]
  | withSetTo v body ih =>
    intro s
    rcases he : set_to_enter s v with e | s1
    · simp [runTracker, he]
    · rcases hb : runTracker body s1 with ⟨r, s2, tr⟩
      have hs2 : s2 = s1 := by have := ih s1; rw [hb] at this; exact this
      simp [runTracker, he, hb, hs2, set_to_exit_enter he]
  | withChangedBy d body ih =>
    intro s
    rcases he : set_to_enter s (.anInt (s.top + d)) with e | s1
    · simp [runTracker, he]
    · rcases hb : runTracker body s1 with ⟨r, s2, tr⟩
      have hs2 : s2 = s1 := by have := ih s1; rw [hb] at this; exact this
      simp [runTracker, he, hb, hs2, set_to_exit_enter he]

theorem runTracker_trace_nonneg (p : TrackerProg) : ∀ s : TrackerStack,
    0 ≤ s.top → (∀ x ∈ s.rest, 0 ≤ x) →
    ∀ t ∈ (runTracker p s).2.2, 0 ≤ t := by
  induction p with
  | skip => intro s _ _ t ht; simp [runTracker] at ht
  | raise e => intro s _ _ t ht; simp [runTracker] at ht
  | seq p q ihp ihq =>
    intro s htop hrest t ht
    rcases hp : runTracker p s with ⟨r, s1, tr⟩
    have hs1 : s1 = s := by
      have := runTracker_restores p s; rw [hp] at this; exact this
    cases r with
    | some e =>
      simp only [runTracker, hp] at ht
      exact ihp s htop hrest t (by rw [hp]; exact ht)
    | none =>
      rcases hq : runTracker q s1 with ⟨r2, s2, tr2⟩
      simp only [runTracker, hp, hq, List.mem_append] at ht
      rcases ht with ht | ht
      · exact ihp s htop hrest t (by rw [hp]; simpa using ht)
      · exact ihq s1 (hs1 ▸ htop) (hs1 ▸ hrest) t (by rw [hq]; simpa using ht)
  | withSetTo v body ih =>
    intro s htop hrest t ht
    rcases he : set_to_enter s v with e | s1
    · simp [runTracker, he] at ht
    · rcases hb : runTracker body s1 with ⟨r, s2, tr⟩
      have hok := set_to_enter_ok he
      have hs2 : s2 = s1 := by
        have := runTracker_restores body s1; rw [hb] at this; exact this
      have hrest1 : ∀ x ∈ s1.rest, 0 ≤ x := by
        rw [hok.1]; intro x hx
        rcases List.mem_cons.mp hx with h | h
        · exact h ▸ htop
        · exact hrest x h
      simp only [runTracker, he, hb, List.mem_cons, List.mem_append,
        List.not_mem_nil, or_false] at ht
      rcases ht with ht | ht | ht
      · exact ht ▸ hok.2
      · exact ih s1 hok.2 hrest1 t (by rw [hb]; simpa using ht)
      · rw [ht, hs2, set_to_exit_enter he]; exact htop
  | withChangedBy d body ih =>
    intro s htop hrest t ht
    rcases he : set_to_enter s (.anInt (s.top + d)) with e | s1
    · simp [runTracker, he] at ht
    · rcases hb : runTracker body s1 with ⟨r, s2, tr⟩
      have hok := set_to_enter_ok he
      have hs2 : s2 = s1 := by
        have := runTracker_restores body s1; rw [hb] at this; exact this
      have hrest1 : ∀ x ∈ s1.rest, 0 ≤ x := by
        rw [hok.1]; intro x hx
        rcases List.mem_cons.mp hx with h | h
        · exact h ▸ htop
        · exact hrest x h
      simp only [runTracker, he, hb, List.mem_cons, List.mem_append,
        List.not_mem_nil, or_false] at ht
      rcases ht with ht | ht | ht
      · exact ht ▸ hok.2
      · exact ih s1 hok.2 hrest1 t (by rw [hb]; simpa using ht)
      · rw [ht, hs2, set_to_exit_enter he]; exact htop

-- ---------------------------------------------------------------------------
-- C4
-- ---------------------------------------------------------------------------

/-- C4: for every starting stack and every body computation, the
`NestingLevelTracker` context managers `set_to` and `changed_by` restore the
tracker (its whole stack, hence its value) to the pre-entry state on every
exit path — whatever the body does, including raising — so in particular `q`,
whose body runs inside `changed_by(+1)`, always restores the level even when
expanding or astifying its body fails. -/
theorem set_to_and_changed_by_restore_level :
    ∀ (v : SetToArg) (d : Int) (body : TrackerProg) (s : TrackerStack),
      (runTracker (.withSetTo v body) s).2.1 = s ∧
      (runTracker (.withChangedBy d body) s).2.1 = s :=
  fun v d body s => ⟨runTracker_restores _ s, runTracker_restores _ s⟩

-- ---------------------------------------------------------------------------
-- C10
-- ---------------------------------------------------------------------------

/-- C10: `set_to` rejects a non-integer with `TypeError` and a negative value
with `ValueError` before modifying the stack, so every tracker program started
on a non-negative stack only ever attains non-negative integer levels, and a
failed `set_to`/`changed_by` entry leaves the tracker unchanged (the run
returns the untouched stack and records no intermediate state). -/
theorem tracker_level_nonneg_invariant :
    ∀ (p : TrackerProg) (s : TrackerStack),
      0 ≤ s.top → (∀ x ∈ s.rest, 0 ≤ x) →
      (∀ t ∈ (runTracker p s).2.2, 0 ≤ t) ∧
      set_to_enter s .notAnInt = .error (.typeErr "Expected integer value") ∧
      (∀ n : Int, n < 0 →
        set_to_enter s (.anInt n) = .error (.valueErr "value must be >= 0")) ∧
      (∀ (v : SetToArg) (body : TrackerProg) (e : PyErr),
        set_to_enter s v = .error e →
        runTracker (.withSetTo v body) s = (some e, s, [])) := by
  intro p s htop hrest
  refine ⟨runTracker_trace_nonneg p s htop hrest, rfl, ?_, ?_⟩
  · intro n hn
    simp [set_to_enter, hn]
  · intro v body e he
    simp [runTracker, he]

/-- Witness for C10 at a concrete input. -/
theorem tracker_level_nonneg_invariant_witness :
    runTracker (.withSetTo .notAnInt .skip) ⟨0, []⟩ =
      (some (.typeErr "Expected integer value"), ⟨0, []⟩, []) :=
  (tracker_level_nonneg_invariant (.withSetTo .notAnInt .skip) ⟨0, []⟩
    (by norm_num) (by simp)).2.2.2 .notAnInt .skip _ (by rfl)

-- ---------------------------------------------------------------------------
-- C6
-- ---------------------------------------------------------------------------

/-- C6: a visitor pass (`BaseMacroExpander.visit`) with an empty binding table
returns the input tree unchanged, whatever the inherited dispatch would do: it
performs no rewriting at all. -/
theorem visit_empty_bindings_noop :
    ∀ (superVisit : PyAst → PyAst) (tree : PyAst),
      visit [] superVisit tree = tree :=
  fun _ _ => rfl

-- ---------------------------------------------------------------------------
-- C7
-- ---------------------------------------------------------------------------

/-- C7: whenever the transformer invoked by `_expand` raises, the expander
re-raises a `MacroExpansionError` whose message contains the use site's file
path, line number and original source text, and whose cause is the original
exception — except that an inner `MacroExpansionError` is collapsed: the new
wrapper's cause is the inner error's own cause and the inner message is
discarded. -/
theorem expand_wraps_and_collapses :
    ∀ (filepath : String) (lineno : Option Int) (original_code : String) (err : Exc),
      ∃ msg cause,
        expandErrWrap filepath lineno original_code (.error err) =
          .error (.mk true msg cause) ∧
        (∃ a b, msg = a ++ filepath ++ b) ∧
        (∃ a b, msg = a ++ linenoStr lineno ++ b) ∧
        (∃ a, msg = a ++ original_code) ∧
        cause = (match err with
                 | .mk true _ c => c
                 | .mk false _ _ => some err) := by
  intro fp ln code err
  refine ⟨"use site was at " ++ fp ++ ":" ++ linenoStr ln ++ ": " ++ code, _, rfl, ?_, ?_, ?_, rfl⟩
  · exact ⟨"use site was at ", ":" ++ linenoStr ln ++ ": " ++ code, by
      simp [String.append_assoc]⟩
  · exact ⟨"use site was at " ++ fp ++ ":", ": " ++ code, by
      simp [String.append_assoc]⟩
  · exact ⟨"use site was at " ++ fp ++ ":" ++ linenoStr ln ++ ": ", by
      simp [String.append_assoc]⟩

-- ---------------------------------------------------------------------------
-- C5
-- ---------------------------------------------------------------------------

theorem find?_eq_value {m : Registry} {v : Obj} {kv : (String × Nat) × Obj}
    (h : m.find? (fun kv => kv.snd == v) = some kv) : kv.snd = v := by
  have := List.find?_some h
  simpa using this

theorem find?_mem {m : Registry} {v : Obj} {kv : (String × Nat) × Obj}
    (h : m.find? (fun kv => kv.snd == v) = some kv) : kv ∈ m :=
  List.mem_of_find?_eq_some h

/-- C5: capture deduplication by identity.  Inserting the same object twice
with `_capture_into` returns the same key both times and leaves the mapping
untouched the second time (the value is stored only once); under the registry
invariants (a `dict` has no duplicate keys; every key was minted by an earlier
gensym draw), capturing two distinct objects — however equal-valued — returns
two distinct keys. -/
theorem capture_into_dedup_by_identity :
    ∀ (m : Registry) (v v1 v2 : Obj) (b1 b2 : String) (g : GensymState),
      ((_capture_into ((_capture_into m v b1 g).2.1) v b2 ((_capture_into m v b1 g).2.2)).1 =
          (_capture_into m v b1 g).1 ∧
        (_capture_into ((_capture_into m v b1 g).2.1) v b2 ((_capture_into m v b1 g).2.2)).2.1 =
          (_capture_into m v b1 g).2.1) ∧
      ((m.map (·.fst)).Nodup → (∀ kv ∈ m, kv.fst.snd < g.ctr) → v1 ≠ v2 →
        (_capture_into m v1 b1 g).1 ≠
          (_capture_into ((_capture_into m v1 b1 g).2.1) v2 b2 ((_capture_into m v1 b1 g).2.2)).1) := by
  intro m v v1 v2 b1 b2 g
  constructor
  · -- same object twice
    rcases h1 : m.find? (fun kv => kv.snd == v) with _ | kv1
    · -- first call mints and appends; the second finds the appended entry
      have h2 : (m ++ [(((b1, g.ctr) : String × Nat), v)]).find? (fun kv => kv.snd == v) =
          some ((b1, g.ctr), v) := by
        rw [List.find?_append, h1]
        simp
      simp [_capture_into, gensym, h1, h2]
    · -- found both times
      simp [_capture_into, h1]
  · -- distinct objects
    intro hnodup hfresh hne
    rcases h1 : m.find? (fun kv => kv.snd == v1) with _ | kv1
    · -- v1 minted: key (b1, g.ctr), appended
      rcases h2 : (m ++ [(((b1, g.ctr) : String × Nat), v1)]).find? (fun kv => kv.snd == v2)
        with _ | kv2
      · -- v2 minted as well, at draw g.ctr + 1
        simp [_capture_into, gensym, h1, h2]
      · -- v2 found: it cannot be the appended entry, so its key is an old draw
        have hmem := find?_mem h2
        have hval := find?_eq_value h2
        have hmem' : kv2 ∈ m := by
          rcases List.mem_append.mp hmem with h | h
          · exact h
          · exfalso
            have : kv2 = ((b1, g.ctr), v1) := by simpa using h
            exact hne (by rw [← hval, this])
        have hlt : kv2.fst.snd < g.ctr := hfresh kv2 hmem'
        simp only [_capture_into, gensym, h1, h2]
        intro hkeq
        rw [← hkeq] at hlt
        simp at hlt
    · -- v1 found in m
      have hval1 := find?_eq_value h1
      have hmem1 := find?_mem h1
      rcases h2 : m.find? (fun kv => kv.snd == v2) with _ | kv2
      · -- v2 minted: fresh draw differs from every stored key
        have hlt : kv1.fst.snd < g.ctr := hfresh kv1 hmem1
        simp only [_capture_into, gensym, h1, h2]
        intro hkeq
        rw [hkeq] at hlt
        simp at hlt
      · -- both found: equal keys would make the entries equal, conflating v1 and v2
        have hval2 := find?_eq_value h2
        have hmem2 := find?_mem h2
        simp only [_capture_into, h1, h2]
        intro hkeq
        have : kv1 = kv2 :=
          List.inj_on_of_nodup_map hnodup hmem1 hmem2 hkeq
        exact hne (by rw [← hval1, ← hval2, this])

/-- Witness for C5 at concrete inputs: capturing object 1 then object 2 into
an empty registry yields distinct keys; the invariant hypotheses hold trivially. -/
theorem capture_into_dedup_by_identity_witness :
    (_capture_into [] ⟨1⟩ "x" ⟨0⟩).1 ≠
      (_capture_into ((_capture_into [] ⟨1⟩ "x" ⟨0⟩).2.1) ⟨2⟩ "y"
        ((_capture_into [] ⟨1⟩ "x" ⟨0⟩).2.2)).1 :=
  (capture_into_dedup_by_identity [] ⟨0⟩ ⟨1⟩ ⟨2⟩ "x" "y" ⟨0⟩).2
    (by simp) (by simp) (by decide)

-- ---------------------------------------------------------------------------
-- Marker lemmas (towards C2)
-- ---------------------------------------------------------------------------

mutual
theorem clean_getm (t : PyAst) (h : cleanNode t = true) :
    get_markers .quasiquoteMarkerC t = [] := by
  cases t with
  | Constant v => simp [get_markers, markerHit, isInst]
  | Name id ctx =>
    cases ctx with
    | none => simp [get_markers, get_markers_opt, markerHit, isInst]
    | some c =>
      simp only [cleanNode] at h
      simp [get_markers, get_markers_opt, markerHit, isInst, clean_getm c h]
  | Attribute v a ctx =>
    cases ctx with
    | none =>
      simp only [cleanNode] at h
      simp [get_markers, get_markers_opt, markerHit, isInst, clean_getm v h]
    | some c =>
      simp only [cleanNode, Bool.and_eq_true] at h
      simp [get_markers, get_markers_opt, markerHit, isInst, clean_getm v h.1,
        clean_getm c h.2]
  | Call f args kws =>
    simp only [cleanNode, Bool.and_eq_true] at h
    simp [get_markers, markerHit, isInst, clean_getm f h.1.1, clean_getm_list args h.1.2,
      clean_getm_list kws h.2]
  | Kw a v =>
    simp only [cleanNode] at h
    simp [get_markers, markerHit, isInst, clean_getm v h]
  | ListA es =>
    simp only [cleanNode] at h
    simp [get_markers, markerHit, isInst, clean_getm_list es h]
  | TupleA es =>
    simp only [cleanNode] at h
    simp [get_markers, markerHit, isInst, clean_getm_list es h]
  | DictA ks vs =>
    simp only [cleanNode, Bool.and_eq_true] at h
    simp [get_markers, markerHit, isInst, clean_getm_list ks h.1, clean_getm_list vs h.2]
  | SetA es =>
    simp only [cleanNode] at h
    simp [get_markers, markerHit, isInst, clean_getm_list es h]
  | Load => simp [get_markers, markerHit, isInst]
  | Assign ts v =>
    simp only [cleanNode, Bool.and_eq_true] at h
    simp [get_markers, markerHit, isInst, clean_getm_list ts h.1, clean_getm v h.2]
  | ASTLiteral b => simp [cleanNode] at h
  | CaptureLater b n => simp [cleanNode] at h

theorem clean_getm_list (ts : PyAstList) (h : cleanList ts = true) :
    get_markers_list .quasiquoteMarkerC ts = [] := by
  cases ts with
  | nil => simp [get_markers_list]
  | cons t ts =>
    simp only [cleanList, Bool.and_eq_true] at h
    simp [get_markers_list, clean_getm t h.1, clean_getm_list ts h.2]
end

theorem capture_call_markers (b : PyAst) (n : String) :
    get_markers .quasiquoteMarkerC
        (.Call (_mcpy_quotes_attr "capture")
          (.cons b (.cons (.Constant (.aStr n)) .nil)) .nil) =
      get_markers .quasiquoteMarkerC b := by
  simp [get_markers, get_markers_list, get_markers_opt, markerHit, isInst,
    _mcpy_quotes_attr]

mutual
theorem markers_astifyNode (t : PyAst) (h : markerBodiesClean t = true)
    (mc : String → Option String) :
    get_markers .quasiquoteMarkerC (astifyNode mc t) = [] := by
  cases t with
  | Constant v =>
    simp [astifyNode, get_markers, get_markers_list, get_markers_opt, markerHit, isInst,
      quotesAstCls, _mcpy_quotes_attr]
  | Name id ctx =>
    cases ctx with
    | none =>
      simp [astifyNode, get_markers, get_markers_list, get_markers_opt, markerHit, isInst,
        quotesAstCls, _mcpy_quotes_attr]
    | some c =>
      simp only [markerBodiesClean] at h
      simp [astifyNode, get_markers, get_markers_list, get_markers_opt, markerHit, isInst,
        quotesAstCls, _mcpy_quotes_attr, markers_astifyNode c h mc]
  | Attribute v a ctx =>
    cases ctx with
    | none =>
      simp only [markerBodiesClean] at h
      simp [astifyNode, get_markers, get_markers_list, get_markers_opt, markerHit, isInst,
        quotesAstCls, _mcpy_quotes_attr, markers_astifyNode v h mc]
    | some c =>
      simp only [markerBodiesClean, Bool.and_eq_true] at h
      simp [astifyNode, get_markers, get_markers_list, get_markers_opt, markerHit, isInst,
        quotesAstCls, _mcpy_quotes_attr, markers_astifyNode v h.1 mc,
        markers_astifyNode c h.2 mc]
  | Call f args kws =>
    simp only [markerBodiesClean, Bool.and_eq_true] at h
    simp [astifyNode, get_markers, get_markers_list, get_markers_opt, markerHit, isInst,
      quotesAstCls, _mcpy_quotes_attr, markers_astifyNode f h.1.1 mc,
      markers_astifyNodeList args h.1.2 mc, markers_astifyNodeList kws h.2 mc]
  | Kw a v =>
    simp only [markerBodiesClean] at h
    simp [astifyNode, get_markers, get_markers_list, get_markers_opt, markerHit, isInst,
      quotesAstCls, _mcpy_quotes_attr, markers_astifyNode v h mc]
  | ListA es =>
    simp only [markerBodiesClean] at h
    simp [astifyNode, get_markers, get_markers_list, get_markers_opt, markerHit, isInst,
      quotesAstCls, _mcpy_quotes_attr, markers_astifyNodeList es h mc]
  | TupleA es =>
    simp only [markerBodiesClean] at h
    simp [astifyNode, get_markers, get_markers_list, get_markers_opt, markerHit, isInst,
      quotesAstCls, _mcpy_quotes_attr, markers_astifyNodeList es h mc]
  | DictA ks vs =>
    simp only [markerBodiesClean, Bool.and_eq_true] at h
    simp [astifyNode, get_markers, get_markers_list, get_markers_opt, markerHit, isInst,
      quotesAstCls, _mcpy_quotes_attr, markers_astifyNodeList ks h.1 mc,
      markers_astifyNodeList vs h.2 mc]
  | SetA es =>
    simp only [markerBodiesClean] at h
    simp [astifyNode, get_markers, get_markers_list, get_markers_opt, markerHit, isInst,
      quotesAstCls, _mcpy_quotes_attr, markers_astifyNodeList es h mc]
  | Load =>
    simp [astifyNode, get_markers, get_markers_list, get_markers_opt, markerHit, isInst,
      quotesAstCls, _mcpy_quotes_attr]
  | Assign ts v =>
    simp only [markerBodiesClean, Bool.and_eq_true] at h
    simp [astifyNode, get_markers, get_markers_list, get_markers_opt, markerHit, isInst,
      quotesAstCls, _mcpy_quotes_attr, markers_astifyNodeList ts h.1 mc,
      markers_astifyNode v h.2 mc]
  | ASTLiteral b =>
    simp only [markerBodiesClean] at h
    simpa [astifyNode] using clean_getm b h
  | CaptureLater b n =>
    simp only [markerBodiesClean] at h
    have hb := clean_getm b h
    cases b with
    | Name id ctx =>
      cases hmc : mc id with
      | some u =>
        simp [astifyNode, hmc, get_markers, get_markers_list, get_markers_opt, markerHit,
          isInst, quotesAstCls, _mcpy_quotes_attr]
      | none =>
        simp only [astifyNode, hmc]
        rw [capture_call_markers]
        exact hb
    | Constant v =>
      simp only [astifyNode]
      rw [capture_call_markers]
      exact hb
    | Attribute v a c =>
      simp only [astifyNode]
      rw [capture_call_markers]
      exact hb
    | Call f args kws =>
      simp only [astifyNode]
      rw [capture_call_markers]
      exact hb
    | Kw a v =>
      simp only [astifyNode]
      rw [capture_call_markers]
      exact hb
    | ListA es =>
      simp only [astifyNode]
      rw [capture_call_markers]
      exact hb
    | TupleA es =>
      simp only [astifyNode]
      rw [capture_call_markers]
      exact hb
    | DictA ks vs =>
      simp only [astifyNode]
      rw [capture_call_markers]
      exact hb
    | SetA es =>
      simp only [astifyNode]
      rw [capture_call_markers]
      exact hb
    | Load =>
      simp only [astifyNode]
      rw [capture_call_markers]
      exact hb
    | Assign ts v =>
      simp only [astifyNode]
      rw [capture_call_markers]
      exact hb
    | ASTLiteral b2 => simp [cleanNode] at h
    | CaptureLater b2 n2 => simp [cleanNode] at h

theorem markers_astifyNodeList (ts : PyAstList) (h : markerBodiesCleanList ts = true)
    (mc : String → Option String) :
    get_markers_list .quasiquoteMarkerC (astifyNodeList mc ts) = [] := by
  cases ts with
  | nil => simp [astifyNodeList, get_markers_list]
  | cons t ts =>
    simp only [markerBodiesCleanList, Bool.and_eq_true] at h
    simp [astifyNodeList, get_markers_list, markers_astifyNode t h.1 mc,
      markers_astifyNodeList ts h.2 mc]
end

-- ---------------------------------------------------------------------------
-- C2
-- ---------------------------------------------------------------------------

/-- C2: when the tree `q` is working on is well formed after inner
quote/unquote expansion — every quasiquote marker the escape operators left
behind wraps a marker-free body — `q`'s `astify` pass compiles away all
markers: `get_markers(tree, QuasiquoteMarker)` is empty, the internal
`assert False` is unreachable, and `q` returns the astified tree with the
level restored. -/
theorem q_leaves_no_markers :
    ∀ (expandQQ : PyAst → PyAst) (mc : String → Option String)
      (tree : PyAst) (s : TrackerStack),
      0 ≤ s.top →
      markerBodiesClean (expandQQ tree) = true →
      get_markers .quasiquoteMarkerC (astifyNode mc (expandQQ tree)) = [] ∧
      qOp expandQQ mc tree .expr none s = (.ok (astifyNode mc (expandQQ tree)), s) := by
  intro eqq mc tree s hs h
  have hm := markers_astifyNode (eqq tree) h mc
  refine ⟨hm, ?_⟩
  have henter : set_to_enter s (.anInt (s.top + 1)) = .ok ⟨s.top + 1, s.top :: s.rest⟩ := by
    simp only [set_to_enter]
    split
    · omega
    · rfl
  simp only [qOp, henter, hm]
  simp [set_to_exit]

/-- Witness for C2 at a concrete input: a single well-formed `ASTLiteral`
escape (marker-free body) is compiled away and the level is restored. -/
theorem q_leaves_no_markers_witness :
    get_markers .quasiquoteMarkerC
        (astifyNode (fun _ => none) (.ASTLiteral (.Constant (.aInt 1)))) = [] ∧
    qOp (fun t => t) (fun _ => none) (.ASTLiteral (.Constant (.aInt 1))) .expr none
        ⟨0, []⟩ = (.ok (.Constant (.aInt 1)), ⟨0, []⟩) :=
  q_leaves_no_markers (fun t => t) (fun _ => none) (.ASTLiteral (.Constant (.aInt 1)))
    ⟨0, []⟩ (by norm_num) (by rfl)

-- ---------------------------------------------------------------------------
-- C3
-- ---------------------------------------------------------------------------

/-- C3 (amended): each of the five unquote operators `u`, `n`, `a`, `s`, `h`,
invoked with valid expr syntax while the quote nesting level is below 1, fails
with a `SyntaxError` whose message is `"<op>[] encountered while quotelevel < 1"`
(not "quoting level") and leaves the tracker stack — hence the nesting level —
and the tree untouched (the error is raised before any state change). -/
theorem unquote_ops_reject_level_zero :
    ∀ (ue : PyAst → PyAst) (up : PyAst → String) (tree : PyAst) (st : TrackerStack),
      st.top < 1 →
      uOp ue tree .expr st =
        (.error (.syntaxErr "u[] encountered while quotelevel < 1"), st) ∧
      nOp tree .expr st =
        (.error (.syntaxErr "n[] encountered while quotelevel < 1"), st) ∧
      aOp tree .expr st =
        (.error (.syntaxErr "a[] encountered while quotelevel < 1"), st) ∧
      sOp tree .expr st =
        (.error (.syntaxErr "s[] encountered while quotelevel < 1"), st) ∧
      hOp up ue tree .expr st =
        (.error (.syntaxErr "h[] encountered while quotelevel < 1"), st) := by
  intro ue up tree st h
  refine ⟨?_, ?_, ?_, ?_, ?_⟩ <;> simp [uOp, nOp, aOp, sOp, hOp, h]

/-- Witness for C3 at a concrete input (level 0). -/
theorem unquote_ops_reject_level_zero_witness :
    uOp (fun t => t) .Load .expr ⟨0, []⟩ =
      (.error (.syntaxErr "u[] encountered while quotelevel < 1"), ⟨0, []⟩) :=
  (unquote_ops_reject_level_zero (fun t => t) (fun _ => "x") .Load ⟨0, []⟩
    (by norm_num)).1

/-- C3 counterexample: the claim asserts the failure message says
"encountered while quoting level < 1"; the message actually raised is
"u[] encountered while quotelevel < 1" (the source spells it `quotelevel`),
which does not contain the claimed wording. -/
theorem unquote_ops_message_wording_counterexample :
    uOp (fun t => t) .Load .expr ⟨0, []⟩ =
      (.error (.syntaxErr "u[] encountered while quotelevel < 1"), ⟨0, []⟩) ∧
    strContains "u[] encountered while quotelevel < 1"
      "encountered while quoting level < 1" = false := by
  constructor
  · norm_num [uOp]
  · decide

-- ---------------------------------------------------------------------------
-- Round-trip lemmas (towards C1)
-- ---------------------------------------------------------------------------

mutual
theorem asNodeList_go_astsOf (ts : PyAstList) : asNodeList.go (astsOf ts) = .ok ts := by
  cases ts with
  | nil => simp [astsOf, asNodeList.go]
  | cons t ts => simp [astsOf, asNodeList.go, asNodeList_go_astsOf ts]
end

theorem asNodeList_astsOf (ts : PyAstList) : asNodeList (.vList (astsOf ts)) = .ok ts := by
  simp [asNodeList, asNodeList_go_astsOf]

mutual
theorem unastify_astifyNode (t : PyAst) (h : cleanNode t = true)
    (co : String → ValueList → List (String × Value) → Except PyErr Value)
    (mc : String → Option String) :
    unastify co (astifyNode mc t) = .ok (.ast t) := by
  cases t with
  | Constant v =>
    have hdn : attr_ast_to_dotted_name (quotesAstCls "Constant") =
        .ok "mcpy.quotes.ast.Constant" := by rfl
    have hlk : lookup_thing "mcpy.quotes.ast.Constant" = .ok (.astCls "Constant") := by
      decide
    simp only [astifyNode]
    simp [unastify, unastifyElts, hdn, hlk, toKwargs, construct, kwGet, asAtom]
  | Name id ctx =>
    have hdn : attr_ast_to_dotted_name (quotesAstCls "Name") =
        .ok "mcpy.quotes.ast.Name" := by rfl
    have hlk : lookup_thing "mcpy.quotes.ast.Name" = .ok (.astCls "Name") := by decide
    cases ctx with
    | none =>
      simp only [astifyNode]
      simp [unastify, unastifyElts, hdn, hlk, toKwargs, construct, kwGet, asStr]
    | some c =>
      simp only [cleanNode] at h
      simp only [astifyNode]
      simp [unastify, unastifyElts, hdn, hlk, unastify_astifyNode c h co mc, toKwargs,
        construct, kwGet, asNode, asStr]
  | Attribute v a ctx =>
    have hdn : attr_ast_to_dotted_name (quotesAstCls "Attribute") =
        .ok "mcpy.quotes.ast.Attribute" := by rfl
    have hlk : lookup_thing "mcpy.quotes.ast.Attribute" = .ok (.astCls "Attribute") := by
      decide
    cases ctx with
    | none =>
      simp only [cleanNode] at h
      simp only [astifyNode]
      simp [unastify, unastifyElts, hdn, hlk, unastify_astifyNode v h co mc, toKwargs,
        construct, kwGet, asNode, asStr]
    | some c =>
      simp only [cleanNode, Bool.and_eq_true] at h
      simp only [astifyNode]
      simp [unastify, unastifyElts, hdn, hlk, unastify_astifyNode v h.1 co mc,
        unastify_astifyNode c h.2 co mc, toKwargs, construct, kwGet, asNode, asStr]
  | Call f args kws =>
    have hdn : attr_ast_to_dotted_name (quotesAstCls "Call") =
        .ok "mcpy.quotes.ast.Call" := by rfl
    have hlk : lookup_thing "mcpy.quotes.ast.Call" = .ok (.astCls "Call") := by decide
    simp only [cleanNode, Bool.and_eq_true] at h
    simp only [astifyNode]
    simp [unastify, unastifyElts, hdn, hlk, unastify_astifyNode f h.1.1 co mc,
      unastify_astifyNodeList args h.1.2 co mc, unastify_astifyNodeList kws h.2 co mc,
      toKwargs, construct, kwGet, asNode, asNodeList_astsOf]
  | Kw a v =>
    have hdn : attr_ast_to_dotted_name (quotesAstCls "keyword") =
        .ok "mcpy.quotes.ast.keyword" := by rfl
    have hlk : lookup_thing "mcpy.quotes.ast.keyword" = .ok (.astCls "keyword") := by
      decide
    simp only [cleanNode] at h
    simp only [astifyNode]
    simp [unastify, unastifyElts, hdn, hlk, unastify_astifyNode v h co mc, toKwargs,
      construct, kwGet, asNode, asStr]
  | ListA es =>
    have hdn : attr_ast_to_dotted_name (quotesAstCls "List") =
        .ok "mcpy.quotes.ast.List" := by rfl
    have hlk : lookup_thing "mcpy.quotes.ast.List" = .ok (.astCls "List") := by decide
    simp only [cleanNode] at h
    simp only [astifyNode]
    simp [unastify, unastifyElts, hdn, hlk, unastify_astifyNodeList es h co mc, toKwargs,
      construct, kwGet, asNodeList_astsOf]
  | TupleA es =>
    have hdn : attr_ast_to_dotted_name (quotesAstCls "Tuple") =
        .ok "mcpy.quotes.ast.Tuple" := by rfl
    have hlk : lookup_thing "mcpy.quotes.ast.Tuple" = .ok (.astCls "Tuple") := by decide
    simp only [cleanNode] at h
    simp only [astifyNode]
    simp [unastify, unastifyElts, hdn, hlk, unastify_astifyNodeList es h co mc, toKwargs,
      construct, kwGet, asNodeList_astsOf]
  | DictA ks vs =>
    have hdn : attr_ast_to_dotted_name (quotesAstCls "Dict") =
        .ok "mcpy.quotes.ast.Dict" := by rfl
    have hlk : lookup_thing "mcpy.quotes.ast.Dict" = .ok (.astCls "Dict") := by decide
    simp only [cleanNode, Bool.and_eq_true] at h
    simp only [astifyNode]
    simp [unastify, unastifyElts, hdn, hlk, unastify_astifyNodeList ks h.1 co mc,
      unastify_astifyNodeList vs h.2 co mc, toKwargs, construct, kwGet, asNodeList_astsOf]
  | SetA es =>
    have hdn : attr_ast_to_dotted_name (quotesAstCls "Set") =
        .ok "mcpy.quotes.ast.Set" := by rfl
    have hlk : lookup_thing "mcpy.quotes.ast.Set" = .ok (.astCls "Set") := by decide
    simp only [cleanNode] at h
    simp only [astifyNode]
    simp [unastify, unastifyElts, hdn, hlk, unastify_astifyNodeList es h co mc, toKwargs,
      construct, kwGet, asNodeList_astsOf]
  | Load =>
    have hdn : attr_ast_to_dotted_name (quotesAstCls "Load") =
        .ok "mcpy.quotes.ast.Load" := by rfl
    have hlk : lookup_thing "mcpy.quotes.ast.Load" = .ok (.astCls "Load") := by decide
    simp only [astifyNode]
    simp [unastify, unastifyElts, hdn, hlk, toKwargs, construct, kwGet]
  | Assign ts v =>
    have hdn : attr_ast_to_dotted_name (quotesAstCls "Assign") =
        .ok "mcpy.quotes.ast.Assign" := by rfl
    have hlk : lookup_thing "mcpy.quotes.ast.Assign" = .ok (.astCls "Assign") := by decide
    simp only [cleanNode, Bool.and_eq_true] at h
    simp only [astifyNode]
    simp [unastify, unastifyElts, hdn, hlk, unastify_astifyNodeList ts h.1 co mc,
      unastify_astifyNode v h.2 co mc, toKwargs, construct, kwGet, asNode,
      asNodeList_astsOf]
  | ASTLiteral b => simp [cleanNode] at h
  | CaptureLater b n => simp [cleanNode] at h

theorem unastify_astifyNodeList (ts : PyAstList) (h : cleanList ts = true)
    (co : String → ValueList → List (String × Value) → Except PyErr Value)
    (mc : String → Option String) :
    unastifyElts co (astifyNodeList mc ts) = .ok (astsOf ts) := by
  cases ts with
  | nil => simp [astifyNodeList, unastifyElts, astsOf]
  | cons t ts =>
    simp only [cleanList, Bool.and_eq_true] at h
    simp [astifyNodeList, unastifyElts, astsOf, unastify_astifyNode t h.1 co mc,
      unastify_astifyNodeList ts h.2 co mc]
end

mutual
theorem unastify_astify (v : Value) (h : cleanValue v = true)
    (co : String → ValueList → List (String × Value) → Except PyErr Value)
    (mc : String → Option String) :
    unastify co (astify mc v) = .ok v := by
  cases v with
  | atom a => simp [astify, unastify]
  | vList xs =>
    simp only [cleanValue] at h
    simp [astify, unastify, unastify_astifyList xs h co mc]
  | vTuple xs =>
    simp only [cleanValue] at h
    simp [astify, unastify, unastify_astifyList xs h co mc]
  | vDict kvs =>
    simp only [cleanValue] at h
    simp [astify, unastify, unastify_astifyDict kvs h co mc]
  | vSet xs =>
    simp only [cleanValue] at h
    simp [astify, unastify, unastify_astifyList xs h co mc]
  | ast t =>
    simp only [cleanValue] at h
    simpa [astify] using unastify_astifyNode t h co mc

theorem unastify_astifyList (xs : ValueList) (h : cleanValueList xs = true)
    (co : String → ValueList → List (String × Value) → Except PyErr Value)
    (mc : String → Option String) :
    unastifyElts co (astifyList mc xs) = .ok xs := by
  cases xs with
  | nil => simp [astifyList, unastifyElts]
  | cons x xs =>
    simp only [cleanValueList, Bool.and_eq_true] at h
    simp [astifyList, unastifyElts, unastify_astify x h.1 co mc,
      unastify_astifyList xs h.2 co mc]

theorem unastify_astifyDict (kvs : ValuePairList) (h : cleanValuePairs kvs = true)
    (co : String → ValueList → List (String × Value) → Except PyErr Value)
    (mc : String → Option String) :
    unastifyPairs co (astifyDictKeys mc kvs) (astifyDictValues mc kvs) = .ok kvs := by
  cases kvs with
  | nil => simp [astifyDictKeys, astifyDictValues, unastifyPairs]
  | cons k v kvs =>
    simp only [cleanValuePairs, Bool.and_eq_true] at h
    simp [astifyDictKeys, astifyDictValues, unastifyPairs, unastify_astify k h.1.1 co mc,
      unastify_astify v h.1.2 co mc, unastify_astifyDict kvs h.2 co mc]
end

-- ---------------------------------------------------------------------------
-- C1
-- ---------------------------------------------------------------------------

/-- C1 (amended): for every value `astify` can lift — atoms of type `int`,
`float`, `str`, `bytes`, `bool`, `None`; lists, tuples, sets and dicts of
liftable values; and AST tree nodes — that contains no quasiquote marker
(`ASTLiteral` / `CaptureLater`, which `astify` also accepts but compiles away
rather than reconstructs), `unastify(astify(v)) = v`, with structural equality
for trees and value equality for atoms, for every capture oracle and every
callee-execution oracle. -/
theorem astify_unastify_roundtrip :
    ∀ (v : Value), cleanValue v = true →
      ∀ (callObj : String → ValueList → List (String × Value) → Except PyErr Value)
        (macroCapture : String → Option String),
        unastify callObj (astify macroCapture v) = .ok v :=
  fun v h co mc => unastify_astify v h co mc

/-- Witness for C1 at the spec's own scenario `[1, "a", (2, 3)]`. -/
theorem astify_unastify_roundtrip_witness :
    unastify (fun _ _ _ => .error .notImplErr) (astify (fun _ => none)
        (.vList (.cons (.atom (.aInt 1)) (.cons (.atom (.aStr "a"))
          (.cons (.vTuple (.cons (.atom (.aInt 2)) (.cons (.atom (.aInt 3)) .nil)))
            .nil))))) =
      .ok (.vList (.cons (.atom (.aInt 1)) (.cons (.atom (.aStr "a"))
        (.cons (.vTuple (.cons (.atom (.aInt 2)) (.cons (.atom (.aInt 3)) .nil)))
          .nil)))) :=
  astify_unastify_roundtrip _ (by rfl) _ _

/-- C1 counterexample: an `ASTLiteral` marker is an AST node that `astify`
lifts (to its body, unchanged), yet the round trip returns the lowered body,
not the marker, so `unastify(astify(v)) ≠ v` for `v = ASTLiteral(Constant(None))`. -/
theorem astify_unastify_roundtrip_marker_counterexample :
    unastify (fun _ _ _ => .error .notImplErr)
        (astify (fun _ => none) (.ast (.ASTLiteral (.Constant .aNone)))) =
      .ok (.atom .aNone) ∧
    Value.atom .aNone ≠ Value.ast (.ASTLiteral (.Constant .aNone)) := by
  constructor
  · simp [astify, astifyNode, unastify]
  · intro heq
    exact Value.noConfusion heq

-- ---------------------------------------------------------------------------
-- delete_markers lemmas (towards C9)
-- ---------------------------------------------------------------------------

theorem markerHit_Constant (cls : MarkerCls) (v : Atom) :
    markerHit cls (.Constant v) = [] := by cases cls <;> rfl

theorem markerHit_Name (cls : MarkerCls) (id : String) (c : Option PyAst) :
    markerHit cls (.Name id c) = [] := by cases cls <;> rfl

theorem markerHit_Attribute (cls : MarkerCls) (v : PyAst) (a : String) (c : Option PyAst) :
    markerHit cls (.Attribute v a c) = [] := by cases cls <;> rfl

theorem markerHit_Call (cls : MarkerCls) (f : PyAst) (a k : PyAstList) :
    markerHit cls (.Call f a k) = [] := by cases cls <;> rfl

theorem markerHit_Kw (cls : MarkerCls) (a : String) (v : PyAst) :
    markerHit cls (.Kw a v) = [] := by cases cls <;> rfl

theorem markerHit_ListA (cls : MarkerCls) (es : PyAstList) :
    markerHit cls (.ListA es) = [] := by cases cls <;> rfl

theorem markerHit_TupleA (cls : MarkerCls) (es : PyAstList) :
    markerHit cls (.TupleA es) = [] := by cases cls <;> rfl

theorem markerHit_DictA (cls : MarkerCls) (ks vs : PyAstList) :
    markerHit cls (.DictA ks vs) = [] := by cases cls <;> rfl

theorem markerHit_SetA (cls : MarkerCls) (es : PyAstList) :
    markerHit cls (.SetA es) = [] := by cases cls <;> rfl

theorem markerHit_Load (cls : MarkerCls) :
    markerHit cls .Load = [] := by cases cls <;> rfl

theorem markerHit_Assign (cls : MarkerCls) (ts : PyAstList) (v : PyAst) :
    markerHit cls (.Assign ts v) = [] := by cases cls <;> rfl

theorem markerHit_AL (cls : MarkerCls) (b b' : PyAst)
    (h : isInst cls (.ASTLiteral b) = false) : markerHit cls (.ASTLiteral b') = [] := by
  cases cls <;> simp_all [markerHit, isInst]

theorem markerHit_CL (cls : MarkerCls) (b b' : PyAst) (n n' : String)
    (h : isInst cls (.CaptureLater b n) = false) :
    markerHit cls (.CaptureLater b' n') = [] := by
  cases cls <;> simp_all [markerHit, isInst]

theorem isInst_AL_shift (cls : MarkerCls) (b b' : PyAst) :
    isInst cls (.ASTLiteral b) = isInst cls (.ASTLiteral b') := by cases cls <;> rfl

theorem isInst_CL_shift (cls : MarkerCls) (b b' : PyAst) (n n' : String) :
    isInst cls (.CaptureLater b n) = isInst cls (.CaptureLater b' n') := by
  cases cls <;> rfl

mutual
theorem delete_markers_transform_clears (cls : MarkerCls) :
    (t : PyAst) → noDirectNest cls t = true →
    get_markers cls (delete_markers_transform cls t) = []
  | .ASTLiteral b, h => by
    simp only [noDirectNest, Bool.and_eq_true, Bool.or_eq_true, Bool.not_eq_true'] at h
    cases hi : isInst cls (.ASTLiteral b) with
    | true =>
      have hb : isInst cls b = false := by
        rcases h.1 with h1 | h1
        · rw [hi] at h1; exact absurd h1 (by simp)
        · exact h1
      simp only [delete_markers_transform, hi, if_true]
      exact delete_markers_generic_clears cls b hb h.2
    | false =>
      simp only [delete_markers_transform, hi]
      exact delete_markers_generic_clears cls (.ASTLiteral b) hi
        (by simp only [noDirectNest, Bool.and_eq_true, Bool.or_eq_true,
              Bool.not_eq_true']
            exact h)
  | .CaptureLater b n, h => by
    simp only [noDirectNest, Bool.and_eq_true, Bool.or_eq_true, Bool.not_eq_true'] at h
    cases hi : isInst cls (.CaptureLater b n) with
    | true =>
      have hb : isInst cls b = false := by
        rcases h.1 with h1 | h1
        · rw [hi] at h1; exact absurd h1 (by simp)
        · exact h1
      simp only [delete_markers_transform, hi, if_true]
      exact delete_markers_generic_clears cls b hb h.2
    | false =>
      simp only [delete_markers_transform, hi]
      exact delete_markers_generic_clears cls (.CaptureLater b n) hi
        (by simp only [noDirectNest, Bool.and_eq_true, Bool.or_eq_true,
              Bool.not_eq_true']
            exact h)
  | .Constant v, h => by
    simp only [delete_markers_transform]
    exact delete_markers_generic_clears cls (.Constant v) (by cases cls <;> rfl) h
  | .Name id ctx, h => by
    simp only [delete_markers_transform]
    exact delete_markers_generic_clears cls (.Name id ctx) (by cases cls <;> rfl) h
  | .Attribute v a ctx, h => by
    simp only [delete_markers_transform]
    exact delete_markers_generic_clears cls (.Attribute v a ctx) (by cases cls <;> rfl) h
  | .Call f args kws, h => by
    simp only [delete_markers_transform]
    exact delete_markers_generic_clears cls (.Call f args kws) (by cases cls <;> rfl) h
  | .Kw a v, h => by
    simp only [delete_markers_transform]
    exact delete_markers_generic_clears cls (.Kw a v) (by cases cls <;> rfl) h
  | .ListA es, h => by
    simp only [delete_markers_transform]
    exact delete_markers_generic_clears cls (.ListA es) (by cases cls <;> rfl) h
  | .TupleA es, h => by
    simp only [delete_markers_transform]
    exact delete_markers_generic_clears cls (.TupleA es) (by cases cls <;> rfl) h
  | .DictA ks vs, h => by
    simp only [delete_markers_transform]
    exact delete_markers_generic_clears cls (.DictA ks vs) (by cases cls <;> rfl) h
  | .SetA es, h => by
    simp only [delete_markers_transform]
    exact delete_markers_generic_clears cls (.SetA es) (by cases cls <;> rfl) h
  | .Load, h => by
    simp only [delete_markers_transform]
    exact delete_markers_generic_clears cls .Load (by cases cls <;> rfl) h
  | .Assign ts v, h => by
    simp only [delete_markers_transform]
    exact delete_markers_generic_clears cls (.Assign ts v) (by cases cls <;> rfl) h
termination_by t => (sizeOf t, 1)

theorem delete_markers_generic_clears (cls : MarkerCls) :
    (t : PyAst) → isInst cls t = false → noDirectNest cls t = true →
    get_markers cls (delete_markers_generic cls t) = []
  | .Constant v, _, _ => by
    simp [delete_markers_generic, get_markers, markerHit_Constant]
  | .Name id none, _, _ => by
    simp [delete_markers_generic, get_markers, get_markers_opt, markerHit_Name]
  | .Name id (some c), _, h => by
    simp only [noDirectNest] at h
    simp [delete_markers_generic, get_markers, get_markers_opt, markerHit_Name,
      delete_markers_transform_clears cls c h]
  | .Attribute v a none, _, h => by
    simp only [noDirectNest] at h
    simp [delete_markers_generic, get_markers, get_markers_opt, markerHit_Attribute,
      delete_markers_transform_clears cls v h]
  | .Attribute v a (some c), _, h => by
    simp only [noDirectNest, Bool.and_eq_true] at h
    simp [delete_markers_generic, get_markers, get_markers_opt, markerHit_Attribute,
      delete_markers_transform_clears cls v h.1, delete_markers_transform_clears cls c h.2]
  | .Call f args kws, _, h => by
    simp only [noDirectNest, Bool.and_eq_true] at h
    simp [delete_markers_generic, get_markers, markerHit_Call,
      delete_markers_transform_clears cls f h.1.1, delete_markers_list_clears cls args h.1.2,
      delete_markers_list_clears cls kws h.2]
  | .Kw a v, _, h => by
    simp only [noDirectNest] at h
    simp [delete_markers_generic, get_markers, markerHit_Kw,
      delete_markers_transform_clears cls v h]
  | .ListA es, _, h => by
    simp only [noDirectNest] at h
    simp [delete_markers_generic, get_markers, markerHit_ListA,
      delete_markers_list_clears cls es h]
  | .TupleA es, _, h => by
    simp only [noDirectNest] at h
    simp [delete_markers_generic, get_markers, markerHit_TupleA,
      delete_markers_list_clears cls es h]
  | .DictA ks vs, _, h => by
    simp only [noDirectNest, Bool.and_eq_true] at h
    simp [delete_markers_generic, get_markers, markerHit_DictA,
      delete_markers_list_clears cls ks h.1, delete_markers_list_clears cls vs h.2]
  | .SetA es, _, h => by
    simp only [noDirectNest] at h
    simp [delete_markers_generic, get_markers, markerHit_SetA,
      delete_markers_list_clears cls es h]
  | .Load, _, _ => by
    simp [delete_markers_generic, get_markers, markerHit_Load]
  | .Assign ts v, _, h => by
    simp only [noDirectNest, Bool.and_eq_true] at h
    simp [delete_markers_generic, get_markers, markerHit_Assign,
      delete_markers_list_clears cls ts h.1, delete_markers_transform_clears cls v h.2]
  | .ASTLiteral b, hroot, h => by
    simp only [noDirectNest, Bool.and_eq_true, Bool.or_eq_true, Bool.not_eq_true'] at h
    simp [delete_markers_generic, get_markers, markerHit_AL cls b _ hroot,
      delete_markers_transform_clears cls b h.2]
  | .CaptureLater b n, hroot, h => by
    simp only [noDirectNest, Bool.and_eq_true, Bool.or_eq_true, Bool.not_eq_true'] at h
    simp [delete_markers_generic, get_markers, markerHit_CL cls b _ n _ hroot,
      delete_markers_transform_clears cls b h.2]
termination_by t => (sizeOf t, 0)

theorem delete_markers_list_clears (cls : MarkerCls) :
    (ts : PyAstList) → noDirectNestList cls ts = true →
    get_markers_list cls (delete_markers_list cls ts) = []
  | .nil, _ => by simp [delete_markers_list, get_markers_list]
  | .cons t ts, h => by
    simp only [noDirectNestList, Bool.and_eq_true] at h
    simp [delete_markers_list, get_markers_list,
      delete_markers_transform_clears cls t h.1, delete_markers_list_clears cls ts h.2]
termination_by ts => (sizeOf ts, 0)
end

mutual
theorem delete_markers_transform_id (cls : MarkerCls) :
    (t : PyAst) → noInstNode cls t = true → delete_markers_transform cls t = t
  | .ASTLiteral b, h => by
    simp only [noInstNode, Bool.and_eq_true, Bool.not_eq_true'] at h
    simp only [delete_markers_transform, h.1]
    exact delete_markers_generic_id cls (.ASTLiteral b)
      (by simp only [noInstNode, Bool.and_eq_true, Bool.not_eq_true']; exact h)
  | .CaptureLater b n, h => by
    simp only [noInstNode, Bool.and_eq_true, Bool.not_eq_true'] at h
    simp only [delete_markers_transform, h.1]
    exact delete_markers_generic_id cls (.CaptureLater b n)
      (by simp only [noInstNode, Bool.and_eq_true, Bool.not_eq_true']; exact h)
  | .Constant v, h => by
    simp only [delete_markers_transform]
    exact delete_markers_generic_id cls (.Constant v) h
  | .Name id ctx, h => by
    simp only [delete_markers_transform]
    exact delete_markers_generic_id cls (.Name id ctx) h
  | .Attribute v a ctx, h => by
    simp only [delete_markers_transform]
    exact delete_markers_generic_id cls (.Attribute v a ctx) h
  | .Call f args kws, h => by
    simp only [delete_markers_transform]
    exact delete_markers_generic_id cls (.Call f args kws) h
  | .Kw a v, h => by
    simp only [delete_markers_transform]
    exact delete_markers_generic_id cls (.Kw a v) h
  | .ListA es, h => by
    simp only [delete_markers_transform]
    exact delete_markers_generic_id cls (.ListA es) h
  | .TupleA es, h => by
    simp only [delete_markers_transform]
    exact delete_markers_generic_id cls (.TupleA es) h
  | .DictA ks vs, h => by
    simp only [delete_markers_transform]
    exact delete_markers_generic_id cls (.DictA ks vs) h
  | .SetA es, h => by
    simp only [delete_markers_transform]
    exact delete_markers_generic_id cls (.SetA es) h
  | .Load, h => by
    simp only [delete_markers_transform]
    exact delete_markers_generic_id cls .Load h
  | .Assign ts v, h => by
    simp only [delete_markers_transform]
    exact delete_markers_generic_id cls (.Assign ts v) h
termination_by t => (sizeOf t, 1)

theorem delete_markers_generic_id (cls : MarkerCls) :
    (t : PyAst) → noInstNode cls t = true → delete_markers_generic cls t = t
  | .Constant v, _ => by simp [delete_markers_generic]
  | .Name id none, _ => by simp [delete_markers_generic]
  | .Name id (some c), h => by
    simp only [noInstNode] at h
    simp [delete_markers_generic, delete_markers_transform_id cls c h]
  | .Attribute v a none, h => by
    simp only [noInstNode] at h
    simp [delete_markers_generic, delete_markers_transform_id cls v h]
  | .Attribute v a (some c), h => by
    simp only [noInstNode, Bool.and_eq_true] at h
    simp [delete_markers_generic, delete_markers_transform_id cls v h.1,
      delete_markers_transform_id cls c h.2]
  | .Call f args kws, h => by
    simp only [noInstNode, Bool.and_eq_true] at h
    simp [delete_markers_generic, delete_markers_transform_id cls f h.1.1,
      delete_markers_list_id cls args h.1.2, delete_markers_list_id cls kws h.2]
  | .Kw a v, h => by
    simp only [noInstNode] at h
    simp [delete_markers_generic, delete_markers_transform_id cls v h]
  | .ListA es, h => by
    simp only [noInstNode] at h
    simp [delete_markers_generic, delete_markers_list_id cls es h]
  | .TupleA es, h => by
    simp only [noInstNode] at h
    simp [delete_markers_generic, delete_markers_list_id cls es h]
  | .DictA ks vs, h => by
    simp only [noInstNode, Bool.and_eq_true] at h
    simp [delete_markers_generic, delete_markers_list_id cls ks h.1,
      delete_markers_list_id cls vs h.2]
  | .SetA es, h => by
    simp only [noInstNode] at h
    simp [delete_markers_generic, delete_markers_list_id cls es h]
  | .Load, _ => by simp [delete_markers_generic]
  | .Assign ts v, h => by
    simp only [noInstNode, Bool.and_eq_true] at h
    simp [delete_markers_generic, delete_markers_list_id cls ts h.1,
      delete_markers_transform_id cls v h.2]
  | .ASTLiteral b, h => by
    simp only [noInstNode, Bool.and_eq_true, Bool.not_eq_true'] at h
    simp [delete_markers_generic, delete_markers_transform_id cls b h.2]
  | .CaptureLater b n, h => by
    simp only [noInstNode, Bool.and_eq_true, Bool.not_eq_true'] at h
    simp [delete_markers_generic, delete_markers_transform_id cls b h.2]
termination_by t => (sizeOf t, 0)

theorem delete_markers_list_id (cls : MarkerCls) :
    (ts : PyAstList) → noInstList cls ts = true → delete_markers_list cls ts = ts
  | .nil, _ => by simp [delete_markers_list]
  | .cons t ts, h => by
    simp only [noInstList, Bool.and_eq_true] at h
    simp [delete_markers_list, delete_markers_transform_id cls t h.1,
      delete_markers_list_id cls ts h.2]
termination_by ts => (sizeOf ts, 0)
end

-- ---------------------------------------------------------------------------
-- C9
-- ---------------------------------------------------------------------------

/-- C9 (amended): `delete_markers(tree, cls)` replaces each `cls` marker by the
node in its `body` attribute and recurses into every child, so that — provided
no `cls` marker's body is directly another `cls` instance — no `cls` instance
remains in the result (`get_markers` returns the empty list); a tree with no
`cls` instances at all is returned unchanged.  (A marker whose body is directly
another `cls` marker is unwrapped only one level, so the inner marker survives;
see the counterexample.) -/
theorem delete_markers_removes_all :
    ∀ (cls : MarkerCls) (tree : PyAst),
      (noDirectNest cls tree = true →
        get_markers cls (delete_markers cls tree) = []) ∧
      (noInstNode cls tree = true → delete_markers cls tree = tree) :=
  fun cls tree =>
    ⟨fun h => delete_markers_transform_clears cls tree h,
     fun h => delete_markers_transform_id cls tree h⟩

/-- Witness for C9 at a concrete input: one marker around a plain constant is
removed, leaving no marker. -/
theorem delete_markers_removes_all_witness :
    get_markers .astMarkerC
        (delete_markers .astMarkerC (.ASTLiteral (.Constant .aNone))) = [] :=
  (delete_markers_removes_all .astMarkerC (.ASTLiteral (.Constant .aNone))).1 (by rfl)

/-- C9 counterexample: a marker whose body is directly another marker is
unwrapped only one level (the source's `if`, not a loop), so the inner marker
survives and `get_markers` on the result is not empty, contradicting the claim
as stated. -/
theorem delete_markers_nested_counterexample :
    get_markers .astMarkerC
        (delete_markers .astMarkerC (.ASTLiteral (.ASTLiteral (.Constant .aNone)))) =
      [.ASTLiteral (.Constant .aNone)] ∧
    ([.ASTLiteral (.Constant .aNone)] : List PyAst) ≠ [] := by
  constructor
  · simp [delete_markers, delete_markers_transform, delete_markers_generic, isInst,
      get_markers, markerHit]
  · simp

-- ---------------------------------------------------------------------------
-- C8
-- ---------------------------------------------------------------------------

theorem lookup_thing_reject {dn : String}
    (h : strStartsWith dn "mcpy.quotes" = false ∨ (splitOnDots dn).length < 3) :
    lookup_thing dn = .error .notImplErr := by
  rcases h with h | h
  · simp [lookup_thing, h]
  · simp only [lookup_thing]
    split
    · rfl
    · rcases hsp : splitOnDots dn with _ | ⟨a, _ | ⟨b, _ | ⟨c, rest⟩⟩⟩ <;>
        simp only [hsp, List.length_cons, List.length_nil] at h ⊢ <;>
        omega

/-- C8: `unastify` never silently executes a foreign constructor call: on a
`Call` node it fails unless the callee is a dotted reference whose joined name
starts (string-wise) with `"mcpy.quotes"` and has at least three dot-separated
components — whatever the callee-execution oracle would do — and it fails when
the callee is not an `Attribute` chain over a `Name` at all; every tree shape
other than constants, keyword pairings, `List`/`Tuple`/`Dict`/`Set` nodes and
accepted constructor calls (`Name`, `Attribute`, `Load`, `Assign`, and the
markers) is likewise rejected with the lower-error `TypeError`. -/
theorem unastify_rejects_foreign :
    ∀ (co : String → ValueList → List (String × Value) → Except PyErr Value),
      (∀ (func : PyAst) (args kws : PyAstList) (dn : String),
        attr_ast_to_dotted_name func = .ok dn →
        (strStartsWith dn "mcpy.quotes" = false ∨ (splitOnDots dn).length < 3) →
        unastify co (.Call func args kws) = .error .notImplErr) ∧
      (∀ (func : PyAst) (args kws : PyAstList) (e : PyErr),
        attr_ast_to_dotted_name func = .error e →
        unastify co (.Call func args kws) = .error e) ∧
      (∀ (id : String) (ctx : Option PyAst),
        unastify co (.Name id ctx) = .error (.typeErr "Don't know how to unastify")) ∧
      (∀ (v : PyAst) (a : String) (ctx : Option PyAst),
        unastify co (.Attribute v a ctx) = .error (.typeErr "Don't know how to unastify")) ∧
      unastify co .Load = .error (.typeErr "Don't know how to unastify") ∧
      (∀ (ts : PyAstList) (v : PyAst),
        unastify co (.Assign ts v) = .error (.typeErr "Don't know how to unastify")) ∧
      (∀ (b : PyAst),
        unastify co (.ASTLiteral b) = .error (.typeErr "Don't know how to unastify")) ∧
      (∀ (b : PyAst) (n : String),
        unastify co (.CaptureLater b n) = .error (.typeErr "Don't know how to unastify")) := by
  intro co
  refine ⟨?_, ?_, ?_, ?_, ?_, ?_, ?_, ?_⟩
  · intro func args kws dn hdn hrej
    simp [unastify, hdn, lookup_thing_reject hrej]
  · intro func args kws e hdn
    simp [unastify, hdn]
  · intro id ctx; simp [unastify]
  · intro v a ctx; simp [unastify]
  · simp [unastify]
  · intro ts v; simp [unastify]
  · intro b; simp [unastify]
  · intro b n; simp [unastify]

/-- Witness for C8 at a concrete input: the foreign callee `os.system` is
rejected with `NotImplementedError`, independent of the execution oracle. -/
theorem unastify_rejects_foreign_witness :
    unastify (fun _ _ _ => .error (.typeErr "called"))
        (.Call (.Attribute (.Name "os" (some .Load)) "system" (some .Load)) .nil .nil) =
      .error .notImplErr :=
  (unastify_rejects_foreign (fun _ _ _ => .error (.typeErr "called"))).1
    (.Attribute (.Name "os" (some .Load)) "system" (some .Load)) .nil .nil "os.system"
    (by rfl) (.inl (by rfl))

end Mcpy
